import Mathlib

/-!
# BlockyRaytracer: camera controller and ray evaluator

A shallow embedding of `src/Main.c`.

* The C side (the `Vector3f` helpers, the window message callback and the camera block of the
  render loop) is embedded with `float` read as an exact real number.  Inside the camera block
  every divisor is non-zero (the pitch is clamped before the basis is derived), so the exact-real
  reading needs no special values there.
* The GLSL fragment shader (`IntersectSphere`, `IntersectAABB`, `main`) is embedded over `GFloat`:
  an exact real number or one of the IEEE special values `+Inf`, `-Inf`, `NaN`.  Rounding is not
  modelled; division by zero and the operations on special values are.  What the builtins `max`,
  `min` and `step` return on a `NaN` operand is left to the implementation by GLSL, so the shader
  takes that choice as a parameter (`NaNChoice`) and the properties are stated for every choice.
-/

namespace BlockyRaytracer

/-! ## C side: `Vector3f` (Main.c 14-67) -/

/-- The C struct `Vector3f`; the three `float` fields are exact reals. -/
@[ext]
structure Vector3f where
  x : ℝ
  y : ℝ
  z : ℝ

/-- Main.c 20-26. -/
def Vector3f_Add (a b : Vector3f) : Vector3f :=
  { x := a.x + b.x, y := a.y + b.y, z := a.z + b.z }

/-- Main.c 28-34. -/
def Vector3f_Subtract (a b : Vector3f) : Vector3f :=
  { x := a.x - b.x, y := a.y - b.y, z := a.z - b.z }

/-- Main.c 36-42. -/
def Vector3f_MultiplyScalar (v : Vector3f) (s : ℝ) : Vector3f :=
  { x := v.x * s, y := v.y * s, z := v.z * s }

/-- Main.c 44-46. -/
def Vector3f_SqrLength (v : Vector3f) : ℝ :=
  (v.x * v.x) + (v.y * v.y) + (v.z * v.z)

/-- Main.c 48-50. -/
noncomputable def Vector3f_Length (v : Vector3f) : ℝ :=
  Real.sqrt (Vector3f_SqrLength v)

/-- Main.c 52-59. -/
noncomputable def Vector3f_Normalized (v : Vector3f) : Vector3f :=
  let inverseLength := 1 / Vector3f_Length v
  { x := v.x * inverseLength, y := v.y * inverseLength, z := v.z * inverseLength }

/-- Main.c 61-67. -/
def Vector3f_Cross (a b : Vector3f) : Vector3f :=
  { x := (a.y * b.z) - (a.z * b.y)
    y := (a.z * b.x) - (a.x * b.z)
    z := (a.x * b.y) - (a.y * b.x) }

/-- The dot product of two `Vector3f` values; it is used to state properties only (the C file has
no such function, the shader uses the GLSL builtin). -/
def Vector3f_Dot (a b : Vector3f) : ℝ :=
  (a.x * b.x) + (a.y * b.y) + (a.z * b.z)

/-! ## C side: process-wide state and the window message callback (Main.c 71-158) -/

/-- The local struct `Camera` of `main` (Main.c 413-418). -/
structure Camera where
  Position : Vector3f
  Forward : Vector3f
  Right : Vector3f
  Up : Vector3f

/-- The file-scope variables of Main.c 71-81 together with the locals `CameraYaw`, `CameraPitch`
and `camera` of `main` (Main.c 420-428).  A C `int` is an integer; the one place where the
program adds to one (`WM_INPUT`) reduces the sum to 32 bits. -/
structure State where
  Running : Bool
  WindowWidth : Int
  WindowHeight : Int
  XMouseDelta : Int
  YMouseDelta : Int
  WPressed : Bool
  SPressed : Bool
  APressed : Bool
  DPressed : Bool
  EPressed : Bool
  QPressed : Bool
  CameraYaw : ℝ
  CameraPitch : ℝ
  camera : Camera

/-- The window messages that `WindowMessageCallback` tells apart.  `WM_SIZE` carries the client
rectangle that `GetClientRect` returns, `WM_KEY` carries whether the message was a key-down one
and the virtual key, `WM_INPUT` carries the raw mouse motion. -/
inductive Msg where
  | WM_CLOSE
  | WM_SIZE (clientWidth clientHeight : Int)
  | WM_KEY (pressed : Bool) (wParam : Char)
  | WM_INPUT (lLastX lLastY : Int)
  | other

/-- The result of an addition of C `int` values: the sum reduced to the 32-bit two's complement
range `[-2^31, 2^31)`. -/
def wrapInt32 (n : Int) : Int := (n + 2147483648) % 4294967296 - 2147483648

/-- Main.c 83-158, the effect on the program state. -/
def WindowMessageCallback (s : State) : Msg → State
  | .WM_CLOSE => { s with Running := false }
  | .WM_SIZE clientWidth clientHeight =>
      if clientWidth > 0 ∧ clientHeight > 0 then
        { s with WindowWidth := clientWidth, WindowHeight := clientHeight }
      else s
  | .WM_KEY pressed wParam =>
      match wParam with
      | 'W' => { s with WPressed := pressed }
      | 'S' => { s with SPressed := pressed }
      | 'A' => { s with APressed := pressed }
      | 'D' => { s with DPressed := pressed }
      | 'E' => { s with EPressed := pressed }
      | 'Q' => { s with QPressed := pressed }
      | _ => s
  | .WM_INPUT lLastX lLastY =>
      { s with
        XMouseDelta := wrapInt32 (s.XMouseDelta + lLastX)
        YMouseDelta := wrapInt32 (s.YMouseDelta + lLastY) }
  | .other => s

/-! ## C side: the camera block of the render loop (Main.c 453-487) -/

/-- C `fmodf x y` over the reals: `x - n * y` where `n` is the quotient `x / y` truncated toward
zero, so that the result has the sign of `x` and magnitude below that of `y`. -/
noncomputable def fmodf (x y : ℝ) : ℝ :=
  let q := x / y
  let n : Int := if 0 ≤ q then ⌊q⌋ else ⌈q⌉
  x - (n : ℝ) * y

/-- The factor `(float)(M_PI / 180.0)`. -/
noncomputable def degToRad : ℝ := Real.pi / 180

/-- Main.c 455: the new yaw. -/
noncomputable def stepYaw (CameraYaw : ℝ) (XMouseDelta : Int) : ℝ :=
  fmodf (CameraYaw + ((XMouseDelta : ℝ) * 0.5)) 360

/-- Main.c 456-462: the new pitch. -/
noncomputable def stepPitch (CameraPitch : ℝ) (YMouseDelta : Int) : ℝ :=
  let p := CameraPitch + (YMouseDelta : ℝ) * 0.5
  let p := if p > 89 then 89 else p
  if p < -89 then -89 else p

/-- Main.c 464-467: `camera.Forward` from yaw and pitch (degrees). -/
noncomputable def cameraForward (CameraYaw CameraPitch : ℝ) : Vector3f :=
  Vector3f_Normalized
    { x := Real.sin (CameraYaw * degToRad) * Real.cos (CameraPitch * degToRad)
      y := -Real.sin (CameraPitch * degToRad)
      z := Real.cos (CameraYaw * degToRad) * Real.cos (CameraPitch * degToRad) }

/-- Main.c 468: `camera.Right` from `camera.Forward`. -/
noncomputable def cameraRight (Forward : Vector3f) : Vector3f :=
  Vector3f_Normalized (Vector3f_Cross { x := 0, y := 1, z := 0 } Forward)

/-- Main.c 469: `camera.Up` from `camera.Forward` and `camera.Right`. -/
noncomputable def cameraUp (Forward Right : Vector3f) : Vector3f :=
  Vector3f_Normalized (Vector3f_Cross Forward Right)

/-- Main.c 471-483: the six conditional translations of `camera.Position`, in source order. -/
def stepPosition (s : State) (Forward Right Up : Vector3f) (moveSpeed : ℝ) : Vector3f :=
  let Position := s.camera.Position
  let Position :=
    if s.WPressed then Vector3f_Add Position (Vector3f_MultiplyScalar Forward moveSpeed)
    else Position
  let Position :=
    if s.SPressed then Vector3f_Subtract Position (Vector3f_MultiplyScalar Forward moveSpeed)
    else Position
  let Position :=
    if s.APressed then Vector3f_Subtract Position (Vector3f_MultiplyScalar Right moveSpeed)
    else Position
  let Position :=
    if s.DPressed then Vector3f_Add Position (Vector3f_MultiplyScalar Right moveSpeed)
    else Position
  let Position :=
    if s.EPressed then Vector3f_Add Position (Vector3f_MultiplyScalar Up moveSpeed)
    else Position
  if s.QPressed then Vector3f_Subtract Position (Vector3f_MultiplyScalar Up moveSpeed)
  else Position

/-- Main.c 453-487: one run of the camera block with frame time `dt`. -/
noncomputable def cameraStep (dt : ℝ) (s : State) : State :=
  let CameraYaw := stepYaw s.CameraYaw s.XMouseDelta
  let CameraPitch := stepPitch s.CameraPitch s.YMouseDelta
  let Forward := cameraForward CameraYaw CameraPitch
  let Right := cameraRight Forward
  let Up := cameraUp Forward Right
  let moveSpeed := 5 * dt
  let Position := stepPosition s Forward Right Up moveSpeed
  { s with
    XMouseDelta := 0
    YMouseDelta := 0
    CameraYaw := CameraYaw
    CameraPitch := CameraPitch
    camera := { Position := Position, Forward := Forward, Right := Right, Up := Up } }

/-- One iteration of the render loop (Main.c 441-487): the pending messages are dispatched in
order, then the camera block runs with the measured frame time. -/
noncomputable def frame (s : State) (f : List Msg × ℝ) : State :=
  cameraStep f.2 (f.1.foldl WindowMessageCallback s)

/-- Any number of iterations of the render loop. -/
noncomputable def frames (s : State) (fs : List (List Msg × ℝ)) : State :=
  fs.foldl frame s

/-! ## GLSL side: the scalar type

A GLSL `float` is an exact real or an IEEE special value.  There is no rounding and no signed
zero; the arithmetic on special values is the IEEE one (GLSL 4.40, section 4.7.1: dividing a
non-zero value by zero gives the appropriately signed infinity), and every ordered comparison
written in the shader is false when an operand is `NaN`.  The same section does not fix what a
builtin returns on a `NaN` operand; see `NaNChoice` below. -/

/-- A GLSL `float`. -/
inductive GFloat where
  | fin (r : ℝ)
  | pinf
  | ninf
  | nan

namespace GFloat

/-- Whether the value is an ordinary (finite) number. -/
def isFinite : GFloat → Bool
  | fin _ => true
  | _ => false

/-- Whether the value is `NaN`. -/
def isNaN : GFloat → Bool
  | nan => true
  | _ => false

/-- Unary minus. -/
def neg : GFloat → GFloat
  | fin a => fin (-a)
  | pinf => ninf
  | ninf => pinf
  | nan => nan

/-- Addition; `Inf + (-Inf)` is `NaN`. -/
def add : GFloat → GFloat → GFloat
  | fin a, fin b => fin (a + b)
  | nan, _ => nan
  | _, nan => nan
  | pinf, ninf => nan
  | ninf, pinf => nan
  | pinf, _ => pinf
  | _, pinf => pinf
  | ninf, _ => ninf
  | _, ninf => ninf

/-- Subtraction. -/
def sub (a b : GFloat) : GFloat := add a (neg b)

/-- An infinity with the sign of `a * b`, for non-zero `a` and a factor of sign `positive`;
`0 * Inf` is `NaN`. -/
noncomputable def mulInf (a : ℝ) (positive : Bool) : GFloat :=
  if a = 0 then nan else if (0 < a) = (positive = true) then pinf else ninf

/-- Multiplication; `0 * Inf` is `NaN`. -/
noncomputable def mul : GFloat → GFloat → GFloat
  | fin a, fin b => fin (a * b)
  | nan, _ => nan
  | _, nan => nan
  | fin a, pinf => mulInf a true
  | fin a, ninf => mulInf a false
  | pinf, fin b => mulInf b true
  | ninf, fin b => mulInf b false
  | pinf, pinf => pinf
  | ninf, ninf => pinf
  | pinf, ninf => ninf
  | ninf, pinf => ninf

/-- Division; a non-zero value over zero is an infinity of the sign of the dividend, `0 / 0` and
`Inf / Inf` are `NaN`, a finite value over an infinity is zero. -/
noncomputable def div : GFloat → GFloat → GFloat
  | fin a, fin b =>
      if b = 0 then (if a = 0 then nan else if 0 < a then pinf else ninf) else fin (a / b)
  | nan, _ => nan
  | _, nan => nan
  | fin _, _ => fin 0
  | pinf, fin b => if 0 ≤ b then pinf else ninf
  | ninf, fin b => if 0 ≤ b then ninf else pinf
  | _, _ => nan

/-- The comparison `a < b`; false as soon as one side is `NaN`. -/
noncomputable def lt : GFloat → GFloat → Bool
  | fin a, fin b => decide (a < b)
  | nan, _ => false
  | _, nan => false
  | ninf, fin _ => true
  | ninf, pinf => true
  | fin _, pinf => true
  | _, _ => false

/-- GLSL `sqrt`; the root of a negative number is `NaN`. -/
noncomputable def sqrt : GFloat → GFloat
  | fin a => if a < 0 then nan else fin (Real.sqrt a)
  | pinf => pinf
  | _ => nan

/-- GLSL `abs`. -/
def abs : GFloat → GFloat
  | fin a => fin |a|
  | pinf => pinf
  | ninf => pinf
  | nan => nan

/-- GLSL `sign x`: `1.0` if `x > 0`, `0.0` if `x = 0`, `-1.0` if `x < 0`. -/
noncomputable def sign : GFloat → GFloat
  | fin a => if 0 < a then fin 1 else if a < 0 then fin (-1) else fin 0
  | pinf => fin 1
  | ninf => fin (-1)
  | nan => nan

/-- GLSL `round`: the nearest integer (GLSL leaves the direction at a fraction of one half to the
implementation; here it is the one of `round` on the reals). -/
noncomputable def roundNearest : GFloat → GFloat
  | fin a => fin ((round a : Int) : ℝ)
  | x => x

instance : Neg GFloat := ⟨neg⟩
instance : Add GFloat := ⟨add⟩
instance : Sub GFloat := ⟨sub⟩
noncomputable instance : Mul GFloat := ⟨mul⟩
noncomputable instance : Div GFloat := ⟨div⟩

end GFloat

/-- What GLSL leaves to the implementation (GLSL 4.40, section 4.7.1: an operation or builtin on
a `NaN` operand is not required to return `NaN`): the outcome of the comparison inside `max`,
`min` and `step` when an operand is `NaN`.  Each field receives the operands in the order of the
call: `maxLt x y` says whether `max x y` takes `x < y` as true and returns `y`; `minLt x y`
whether `min x y` takes `y < x` as true and returns `y`; `stepLt edge x` whether `step edge x`
takes `x < edge` as true and returns `0.0`. -/
structure NaNChoice where
  maxLt : GFloat → GFloat → Bool
  minLt : GFloat → GFloat → Bool
  stepLt : GFloat → GFloat → Bool

/-- GLSL `max x y`: `y` if `x < y`, otherwise `x`; with a `NaN` operand the implementation
decides which of the two it returns. -/
noncomputable def GFloat.max (c : NaNChoice) (x y : GFloat) : GFloat :=
  if (if x.isNaN || y.isNaN then c.maxLt x y else GFloat.lt x y) then y else x

/-- GLSL `min x y`: `y` if `y < x`, otherwise `x`; with a `NaN` operand the implementation
decides which of the two it returns. -/
noncomputable def GFloat.min (c : NaNChoice) (x y : GFloat) : GFloat :=
  if (if x.isNaN || y.isNaN then c.minLt x y else GFloat.lt y x) then y else x

/-- GLSL `step edge x`: `0.0` if `x < edge`, otherwise `1.0`; with a `NaN` operand the
implementation decides which of the two it returns. -/
noncomputable def GFloat.step (c : NaNChoice) (edge x : GFloat) : GFloat :=
  if (if edge.isNaN || x.isNaN then c.stepLt edge x else GFloat.lt x edge) then GFloat.fin 0
  else GFloat.fin 1

/-- The implementation that evaluates the comparison inside each builtin as an IEEE comparison,
false on `NaN`: `max` and `min` return their first operand and `step` returns `1.0`. -/
def NaNChoice.compareFalse : NaNChoice :=
  { maxLt := fun _ _ => false, minLt := fun _ _ => false, stepLt := fun _ _ => false }

/-- The implementation whose `max` and `min` return the operand that is a number when the other
is `NaN` (IEEE `maxNum`, `minNum`) and whose `step` returns `1.0` on a `NaN` operand. -/
def NaNChoice.numberFirst : NaNChoice :=
  { maxLt := fun x _ => x.isNaN, minLt := fun x _ => x.isNaN, stepLt := fun _ _ => false }

/-- The implementation whose `step edge x` is computed as `x >= edge ? 1.0 : 0.0`, hence `0.0`
on a `NaN` operand (on ordinary numbers it is the same function); `max` and `min` as in
`NaNChoice.numberFirst`. -/
def NaNChoice.stepGe : NaNChoice :=
  { maxLt := fun x _ => x.isNaN, minLt := fun x _ => x.isNaN, stepLt := fun _ _ => true }

/-! ## GLSL side: vectors -/

/-- GLSL `vec2`. -/
structure vec2 where
  x : GFloat
  y : GFloat

/-- GLSL `vec3`. -/
structure vec3 where
  x : GFloat
  y : GFloat
  z : GFloat

/-- GLSL `vec4`. -/
structure vec4 where
  x : GFloat
  y : GFloat
  z : GFloat
  w : GFloat

namespace vec3

/-- The constructor `vec3(s)` from one scalar. -/
def splat (s : GFloat) : vec3 := { x := s, y := s, z := s }

/-- The swizzle `.yzx`. -/
def yzx (v : vec3) : vec3 := { x := v.y, y := v.z, z := v.x }

/-- The swizzle `.zxy`. -/
def zxy (v : vec3) : vec3 := { x := v.z, y := v.x, z := v.y }

instance : Neg vec3 := ⟨fun a => { x := -a.x, y := -a.y, z := -a.z }⟩
instance : Add vec3 := ⟨fun a b => { x := a.x + b.x, y := a.y + b.y, z := a.z + b.z }⟩
instance : Sub vec3 := ⟨fun a b => { x := a.x - b.x, y := a.y - b.y, z := a.z - b.z }⟩
noncomputable instance : Mul vec3 :=
  ⟨fun a b => { x := a.x * b.x, y := a.y * b.y, z := a.z * b.z }⟩
noncomputable instance : HMul vec3 GFloat vec3 :=
  ⟨fun a s => { x := a.x * s, y := a.y * s, z := a.z * s }⟩
noncomputable instance : HDiv vec3 GFloat vec3 :=
  ⟨fun a s => { x := a.x / s, y := a.y / s, z := a.z / s }⟩
noncomputable instance : HDiv GFloat vec3 vec3 :=
  ⟨fun s a => { x := s / a.x, y := s / a.y, z := s / a.z }⟩

end vec3

/-- GLSL `abs` on a `vec3`. -/
def vabs (v : vec3) : vec3 := { x := v.x.abs, y := v.y.abs, z := v.z.abs }

/-- GLSL `sign` on a `vec3`. -/
noncomputable def vsign (v : vec3) : vec3 := { x := v.x.sign, y := v.y.sign, z := v.z.sign }

/-- GLSL `step` on two `vec3`. -/
noncomputable def vstep (c : NaNChoice) (edge v : vec3) : vec3 :=
  { x := GFloat.step c edge.x v.x
    y := GFloat.step c edge.y v.y
    z := GFloat.step c edge.z v.z }

/-- GLSL `round` on a `vec3`. -/
noncomputable def vround (v : vec3) : vec3 :=
  { x := v.x.roundNearest, y := v.y.roundNearest, z := v.z.roundNearest }

/-- GLSL `dot`. -/
noncomputable def dot (a b : vec3) : GFloat := a.x * b.x + a.y * b.y + a.z * b.z

/-- GLSL `length`. -/
noncomputable def length (v : vec3) : GFloat := GFloat.sqrt (dot v v)

/-- GLSL `normalize`: the vector divided by its length. -/
noncomputable def normalize (v : vec3) : vec3 := v / length v

/-- The upload of a C `Vector3f` into a `vec3` uniform (`glProgramUniform3fv`, Main.c 493-496). -/
def Vector3f.toVec3 (v : Vector3f) : vec3 :=
  { x := GFloat.fin v.x, y := GFloat.fin v.y, z := GFloat.fin v.z }

/-! ## GLSL side: the fragment shader (Main.c 311-400) -/

/-- The GLSL struct `Hit` (Main.c 323-328).  A field that the shader has not assigned is
`none`. -/
structure Hit where
  Hit : Bool
  Distance : Option GFloat
  Point : Option vec3
  Normal : Option vec3

/-- Main.c 333: the local `t` of `IntersectSphere`. -/
noncomputable def IntersectSphere_t (rayPos rayDir spherePos : vec3) : GFloat :=
  dot (spherePos - rayPos) rayDir

/-- Main.c 334-335: the local `y` of `IntersectSphere`. -/
noncomputable def IntersectSphere_y (rayPos rayDir spherePos : vec3) : GFloat :=
  let t := IntersectSphere_t rayPos rayDir spherePos
  let p := rayPos + (rayDir * t)
  length (spherePos - p)

/-- Main.c 337: the local `x` of `IntersectSphere` (computed when `y < sphereRadius`). -/
noncomputable def IntersectSphere_x (rayPos rayDir spherePos : vec3) (sphereRadius : GFloat) :
    GFloat :=
  let y := IntersectSphere_y rayPos rayDir spherePos
  GFloat.sqrt (sphereRadius * sphereRadius - y * y)

/-- Main.c 330-347. -/
noncomputable def IntersectSphere (rayPos rayDir spherePos : vec3) (sphereRadius : GFloat) :
    Hit :=
  let t := IntersectSphere_t rayPos rayDir spherePos
  let y := IntersectSphere_y rayPos rayDir spherePos
  if GFloat.lt y sphereRadius then
    let x := IntersectSphere_x rayPos rayDir spherePos sphereRadius
    let Distance := t - x
    if GFloat.lt Distance (GFloat.fin 0) then
      { Hit := false, Distance := some Distance, Point := none, Normal := none }
    else
      let Point := rayPos + (rayDir * Distance)
      { Hit := true, Distance := some Distance, Point := some Point
        Normal := some ((Point - spherePos) / sphereRadius) }
  else
    { Hit := false, Distance := none, Point := none, Normal := none }

/-- Main.c 352: the local `m` of `IntersectAABB`. -/
noncomputable def IntersectAABB_m (rayDir : vec3) : vec3 := GFloat.fin 1 / rayDir

/-- Main.c 353-355: the local `t1` of `IntersectAABB`. -/
noncomputable def IntersectAABB_t1 (rayPos rayDir boxPos boxSize : vec3) : vec3 :=
  let m := IntersectAABB_m rayDir
  let n := m * (rayPos - boxPos)
  let k := vabs m * boxSize
  let t1 := -n - k
  t1

/-- Main.c 353-356: the local `t2` of `IntersectAABB`. -/
noncomputable def IntersectAABB_t2 (rayPos rayDir boxPos boxSize : vec3) : vec3 :=
  let m := IntersectAABB_m rayDir
  let n := m * (rayPos - boxPos)
  let k := vabs m * boxSize
  let t2 := -n + k
  t2

/-- Main.c 357: the local `tN` of `IntersectAABB`. -/
noncomputable def IntersectAABB_tN (c : NaNChoice) (rayPos rayDir boxPos boxSize : vec3) :
    GFloat :=
  let t1 := IntersectAABB_t1 rayPos rayDir boxPos boxSize
  GFloat.max c (GFloat.max c t1.x t1.y) t1.z

/-- Main.c 358: the local `tF` of `IntersectAABB`. -/
noncomputable def IntersectAABB_tF (c : NaNChoice) (rayPos rayDir boxPos boxSize : vec3) :
    GFloat :=
  let t2 := IntersectAABB_t2 rayPos rayDir boxPos boxSize
  GFloat.min c (GFloat.min c t2.x t2.y) t2.z

/-- Main.c 349-367, on an implementation with the choice `c`.  `hit.Distance` and `hit.Point`
are never assigned (the two TODO lines). -/
noncomputable def IntersectAABB (c : NaNChoice) (rayPos rayDir boxPos boxSize : vec3) : Hit :=
  let t1 := IntersectAABB_t1 rayPos rayDir boxPos boxSize
  let tN := IntersectAABB_tN c rayPos rayDir boxPos boxSize
  let tF := IntersectAABB_tF c rayPos rayDir boxPos boxSize
  if GFloat.lt tF tN || GFloat.lt tF (GFloat.fin 0) || GFloat.lt tN (GFloat.fin 0) then
    { Hit := false, Distance := none, Point := none, Normal := none }
  else
    { Hit := true, Distance := none, Point := none
      Normal := some (normalize (-vsign rayDir * vstep c t1.yzx t1 * vstep c t1.zxy t1)) }

/-- Main.c 370-374: the primary ray direction of the fragment shader. -/
noncomputable def main_rayDir (v_Coord u_WindowSize : vec2)
    (u_CameraForward u_CameraRight u_CameraUp : vec3) : vec3 :=
  normalize
    (u_CameraRight * (v_Coord.x * GFloat.fin 2 - GFloat.fin 1)
        * (u_WindowSize.x / u_WindowSize.y) +
      u_CameraUp * (v_Coord.y * GFloat.fin 2 - GFloat.fin 1) +
      u_CameraForward)

/-- The constant colour `vec4(0.1, 0.1, 0.1, 1.0)`. -/
noncomputable def backgroundColor : vec4 :=
  { x := GFloat.fin 0.1, y := GFloat.fin 0.1, z := GFloat.fin 0.1, w := GFloat.fin 1 }

/-- The colour `vec4(hit.Normal, 1.0)`; `none` when `hit.Normal` was never assigned. -/
def normalColor (hit : Hit) : Option vec4 :=
  hit.Normal.map fun n => { x := n.x, y := n.y, z := n.z, w := GFloat.fin 1 }

/-- Main.c 369-400: the fragment shader `main` on an implementation with the choice `c`; the
result is `o_Color`. -/
noncomputable def fragment_main (c : NaNChoice) (v_Coord u_WindowSize : vec2)
    (u_CameraPosition u_CameraForward u_CameraRight u_CameraUp : vec3) : Option vec4 :=
  let rayDir := main_rayDir v_Coord u_WindowSize u_CameraForward u_CameraRight u_CameraUp
  let spherePos : vec3 := { x := GFloat.fin 0, y := GFloat.fin 0, z := GFloat.fin 12 }
  let sphereRadius := GFloat.fin 10
  let hit := IntersectSphere u_CameraPosition rayDir spherePos sphereRadius
  if hit.Hit then
    match hit.Point with
    | none => none
    | some Point =>
      let boxPos := vround Point
      let boxSize := vec3.splat (GFloat.fin 0.4)
      let hit := IntersectAABB c u_CameraPosition rayDir boxPos boxSize
      if hit.Hit then normalColor hit else some backgroundColor
  else
    some backgroundColor

/-! ## Helpers used to state the properties -/

/-- The state of the program when the render loop is entered (Main.c 71-81 and 420-428). -/
def initialState : State :=
  { Running := true, WindowWidth := 640, WindowHeight := 480, XMouseDelta := 0, YMouseDelta := 0
    WPressed := false, SPressed := false, APressed := false, DPressed := false
    EPressed := false, QPressed := false, CameraYaw := 0, CameraPitch := 0
    camera :=
      { Position := { x := 0, y := 0, z := 0 }, Forward := { x := 0, y := 0, z := 1 }
        Right := { x := 1, y := 0, z := 0 }, Up := { x := 0, y := 1, z := 0 } } }

/-- The initial state with the W key held. -/
def initialStateW : State := { initialState with WPressed := true }

/-- The state with the W and S flags both set to `b`. -/
def setWS (s : State) (b : Bool) : State := { s with WPressed := b, SPressed := b }

/-- The state with the A and D flags both set to `b`. -/
def setAD (s : State) (b : Bool) : State := { s with APressed := b, DPressed := b }

/-- The state with the E and Q flags both set to `b`. -/
def setEQ (s : State) (b : Bool) : State := { s with EPressed := b, QPressed := b }

/-- A key flag as a number: 1 when held, 0 otherwise. -/
def held (b : Bool) : ℝ := if b then 1 else 0

/-- The net direction asked for by the six key flags:
`(W - S) * forward + (D - A) * right + (E - Q) * up`. -/
def keyDirection (s : State) (Forward Right Up : Vector3f) : Vector3f :=
  Vector3f_Add
    (Vector3f_Add (Vector3f_MultiplyScalar Forward (held s.WPressed - held s.SPressed))
      (Vector3f_MultiplyScalar Right (held s.DPressed - held s.APressed)))
    (Vector3f_MultiplyScalar Up (held s.EPressed - held s.QPressed))

/-- The point of the ray from `o` in direction `d` at parameter `u`. -/
def rayPoint (o d : Vector3f) (u : ℝ) : Vector3f :=
  Vector3f_Add o (Vector3f_MultiplyScalar d u)

/-- The parameter at which the line through `o` in direction `d` is closest to `c`, for a unit
direction: `dot (c - o) d`. -/
def sphereT (o d c : Vector3f) : ℝ :=
  Vector3f_Dot (Vector3f_Subtract c o) d

/-- The closest approach of the line through `o` in direction `d` to the point `c`: the distance
from `c` to the foot of the perpendicular. -/
noncomputable def closestApproach (o d c : Vector3f) : ℝ :=
  Vector3f_Length (Vector3f_Subtract c (rayPoint o d (sphereT o d c)))

/-- The outward unit normal of the sphere of centre `c` and radius `r` at the surface point `P`,
componentwise `(P - c) / r`. -/
noncomputable def sphereNormal (P c : Vector3f) (r : ℝ) : Vector3f :=
  { x := (P.x - c.x) / r, y := (P.y - c.y) / r, z := (P.z - c.z) / r }

/-- GLSL `sign` on an ordinary number: 1 if positive, -1 if negative, 0 at zero. -/
noncomputable def signReal (a : ℝ) : ℝ := if 0 < a then 1 else if a < 0 then -1 else 0

/-- The near distance of one slab on ordinary numbers (Main.c 352-355, one component):
`-(m * (o - b)) - |m| * e` with `m = 1 / d`. -/
noncomputable def slabNear1 (o d b e : ℝ) : ℝ := -(1 / d * (o - b)) - |1 / d| * e

/-- The far distance of one slab on ordinary numbers (Main.c 352-356, one component). -/
noncomputable def slabFar1 (o d b e : ℝ) : ℝ := -(1 / d * (o - b)) + |1 / d| * e

/-- The near distance `tN` on ordinary numbers: the greatest of the three per-axis near
distances (Main.c 357). -/
noncomputable def slabNear (o d b e : Vector3f) : ℝ :=
  max (max (slabNear1 o.x d.x b.x e.x) (slabNear1 o.y d.y b.y e.y)) (slabNear1 o.z d.z b.z e.z)

/-- The far distance `tF` on ordinary numbers: the least of the three per-axis far distances
(Main.c 358). -/
noncomputable def slabFar (o d b e : Vector3f) : ℝ :=
  min (min (slabFar1 o.x d.x b.x e.x) (slabFar1 o.y d.y b.y e.y)) (slabFar1 o.z d.z b.z e.z)

/-- The point `P` lies on the surface of the box of centre `b` and half-extents `e`: it is inside
the three slabs and on the boundary of one of them. -/
def onBoxSurface (P b e : Vector3f) : Prop :=
  |P.x - b.x| ≤ e.x ∧ |P.y - b.y| ≤ e.y ∧ |P.z - b.z| ≤ e.z ∧
  (|P.x - b.x| = e.x ∨ |P.y - b.y| = e.y ∨ |P.z - b.z| = e.z)

/-! ## Camera basis -/

/-- Normalising a vector whose squared length is `l * l` with `l > 0` divides it by `l`. -/
theorem Vector3f_Normalized_of_sqrLength (v : Vector3f) (l : ℝ) (hl : 0 < l)
    (h : Vector3f_SqrLength v = l * l) :
    Vector3f_Normalized v = { x := v.x / l, y := v.y / l, z := v.z / l } := by
  have hlen : Vector3f_Length v = l := by
    rw [Vector3f_Length, h]
    exact Real.sqrt_mul_self hl.le
  simp only [Vector3f_Normalized, hlen]
  ext <;> simp [div_eq_mul_inv]

/-- The basis of the camera block in closed form, in terms of the sines and cosines of the two
angles, when the cosine of the pitch is positive. -/
theorem basis_closed_form (sY cY sP cP : ℝ) (hY : sY * sY + cY * cY = 1)
    (hP : sP * sP + cP * cP = 1) (hc : 0 < cP) :
    let f : Vector3f := Vector3f_Normalized { x := sY * cP, y := -sP, z := cY * cP }
    f = { x := sY * cP, y := -sP, z := cY * cP } ∧
    cameraRight f = { x := cY, y := 0, z := -sY } ∧
    cameraUp f (cameraRight f) = { x := sP * sY, y := cP, z := sP * cY } := by
  intro f
  have hf : f = { x := sY * cP, y := -sP, z := cY * cP } := by
    show Vector3f_Normalized _ = _
    rw [Vector3f_Normalized_of_sqrLength _ 1 one_pos
      (by simp only [Vector3f_SqrLength]; nlinarith)]
    ext <;> simp
  have hr : cameraRight f = { x := cY, y := 0, z := -sY } := by
    rw [hf, cameraRight, Vector3f_Normalized_of_sqrLength _ cP hc
      (by simp only [Vector3f_SqrLength, Vector3f_Cross]; nlinarith)]
    ext
    · show (1 * (cY * cP) - 0 * -sP) / cP = cY
      field_simp
    · show (0 * (sY * cP) - 0 * (cY * cP)) / cP = 0
      simp
    · show (0 * -sP - 1 * (sY * cP)) / cP = -sY
      field_simp
  refine ⟨hf, hr, ?_⟩
  rw [hr, hf, cameraUp, Vector3f_Normalized_of_sqrLength _ 1 one_pos
    (by simp only [Vector3f_SqrLength, Vector3f_Cross]
        linear_combination
          (sP * sP + cP * cP * (sY * sY + cY * cY - 1) + 2 * cP * cP) * hY + hP)]
  ext
  · show (-sP * -sY - cY * cP * 0) / 1 = sP * sY
    ring
  · show (cY * cP * cY - sY * cP * -sY) / 1 = cP
    linear_combination cP * hY
  · show (sY * cP * 0 - -sP * cY) / 1 = sP * cY
    ring

/-- The closed form of the basis is orthonormal and right-handed. -/
theorem closed_form_orthonormal (sY cY sP cP : ℝ) (hY : sY * sY + cY * cY = 1)
    (hP : sP * sP + cP * cP = 1) :
    let f : Vector3f := { x := sY * cP, y := -sP, z := cY * cP }
    let r : Vector3f := { x := cY, y := 0, z := -sY }
    let u : Vector3f := { x := sP * sY, y := cP, z := sP * cY }
    Vector3f_Dot f r = 0 ∧ Vector3f_Dot f u = 0 ∧ Vector3f_Dot r u = 0 ∧
    Vector3f_Length f = 1 ∧ Vector3f_Length r = 1 ∧ Vector3f_Length u = 1 ∧
    Vector3f_Dot (Vector3f_Cross r u) f = 1 := by
  intro f r u
  simp only [f, r, u, Vector3f_Dot, Vector3f_Length, Vector3f_SqrLength, Vector3f_Cross]
  refine ⟨by ring, by linear_combination (cP * sP) * hY, by ring, ?_, ?_, ?_, ?_⟩
  · rw [show _ + _ + _ = (1 : ℝ) by linear_combination (cP * cP) * hY + hP]
    exact Real.sqrt_one
  · rw [show _ + _ + _ = (1 : ℝ) by linear_combination hY]
    exact Real.sqrt_one
  · rw [show _ + _ + _ = (1 : ℝ) by linear_combination (sP * sP) * hY + hP]
    exact Real.sqrt_one
  · linear_combination (cP * cP + sP * sP) * hY + hP

/-- For a pitch strictly inside the poles the cosine of the pitch is positive. -/
theorem cos_pitch_pos (pitch : ℝ) (hlo : -90 < pitch) (hhi : pitch < 90) :
    0 < Real.cos (pitch * degToRad) := by
  have hpi := Real.pi_pos
  apply Real.cos_pos_of_mem_Ioo
  constructor
  · unfold degToRad; nlinarith
  · unfold degToRad; nlinarith

/-- The three basis vectors of the camera block in closed form. -/
theorem camera_basis_eq (yaw pitch : ℝ) (hlo : -90 < pitch) (hhi : pitch < 90) :
    cameraForward yaw pitch =
        { x := Real.sin (yaw * degToRad) * Real.cos (pitch * degToRad)
          y := -Real.sin (pitch * degToRad)
          z := Real.cos (yaw * degToRad) * Real.cos (pitch * degToRad) } ∧
    cameraRight (cameraForward yaw pitch) =
        { x := Real.cos (yaw * degToRad), y := 0, z := -Real.sin (yaw * degToRad) } ∧
    cameraUp (cameraForward yaw pitch) (cameraRight (cameraForward yaw pitch)) =
        { x := Real.sin (pitch * degToRad) * Real.sin (yaw * degToRad)
          y := Real.cos (pitch * degToRad)
          z := Real.sin (pitch * degToRad) * Real.cos (yaw * degToRad) } :=
  basis_closed_form _ _ _ _ (by nlinarith [Real.sin_sq_add_cos_sq (yaw * degToRad)])
    (by nlinarith [Real.sin_sq_add_cos_sq (pitch * degToRad)]) (cos_pitch_pos pitch hlo hhi)

/-- C1. For every yaw in [0,360) and every pitch in (-89,89) (degrees) the triple that the camera
block derives, forward = normalize(sin yaw cos pitch, -sin pitch, cos yaw cos pitch),
right = normalize(cross((0,1,0), forward)), up = normalize(cross(forward, right)), is orthonormal
over the reals (the three pairwise dot products are exactly 0, the three lengths exactly 1) and
right-handed: dot(cross(right, up), forward) > 0. -/
theorem C1_camera_basis_orthonormal (yaw pitch : ℝ) (_hy0 : 0 ≤ yaw) (_hy1 : yaw < 360)
    (hp0 : -89 < pitch) (hp1 : pitch < 89) :
    Vector3f_Dot (cameraForward yaw pitch) (cameraRight (cameraForward yaw pitch)) = 0 ∧
    Vector3f_Dot (cameraForward yaw pitch)
      (cameraUp (cameraForward yaw pitch) (cameraRight (cameraForward yaw pitch))) = 0 ∧
    Vector3f_Dot (cameraRight (cameraForward yaw pitch))
      (cameraUp (cameraForward yaw pitch) (cameraRight (cameraForward yaw pitch))) = 0 ∧
    Vector3f_Length (cameraForward yaw pitch) = 1 ∧
    Vector3f_Length (cameraRight (cameraForward yaw pitch)) = 1 ∧
    Vector3f_Length
      (cameraUp (cameraForward yaw pitch) (cameraRight (cameraForward yaw pitch))) = 1 ∧
    0 < Vector3f_Dot
      (Vector3f_Cross (cameraRight (cameraForward yaw pitch))
        (cameraUp (cameraForward yaw pitch) (cameraRight (cameraForward yaw pitch))))
      (cameraForward yaw pitch) := by
  obtain ⟨hf, hr, hu⟩ := camera_basis_eq yaw pitch (by linarith) (by linarith)
  obtain ⟨h1, h2, h3, h4, h5, h6, h7⟩ :=
    closed_form_orthonormal (Real.sin (yaw * degToRad)) (Real.cos (yaw * degToRad))
      (Real.sin (pitch * degToRad)) (Real.cos (pitch * degToRad))
      (by nlinarith [Real.sin_sq_add_cos_sq (yaw * degToRad)])
      (by nlinarith [Real.sin_sq_add_cos_sq (pitch * degToRad)])
  rw [hu, hr, hf]
  exact ⟨h1, h2, h3, h4, h5, h6, by rw [h7]; exact one_pos⟩

/-- C1 at yaw 90 and pitch 45: the right-handedness of the derived triple. -/
theorem C1_camera_basis_orthonormal_witness :
    0 < Vector3f_Dot
      (Vector3f_Cross (cameraRight (cameraForward 90 45))
        (cameraUp (cameraForward 90 45) (cameraRight (cameraForward 90 45))))
      (cameraForward 90 45) :=
  (C1_camera_basis_orthonormal 90 45 (by norm_num) (by norm_num) (by norm_num)
    (by norm_num)).2.2.2.2.2.2

/-! ## Pitch clamp -/

/-- The two `if` statements of Main.c 457-462 are a clamp to `[-89, 89]`. -/
theorem stepPitch_eq_clamp (pitch : ℝ) (dy : Int) :
    stepPitch pitch dy = max (-89) (min (pitch + 0.5 * (dy : ℝ)) 89) := by
  unfold stepPitch
  rw [show pitch + (dy : ℝ) * 0.5 = pitch + 0.5 * (dy : ℝ) by ring]
  generalize pitch + 0.5 * (dy : ℝ) = p
  by_cases h1 : p > 89
  · have : ¬ ((89 : ℝ) < -89) := by norm_num
    simp only [h1, if_true, this, if_false]
    rw [min_eq_right (le_of_lt h1), max_eq_right (by norm_num)]
  · simp only [h1, if_false]
    have h1' : p ≤ 89 := not_lt.mp h1
    rw [min_eq_left h1']
    by_cases h2 : p < -89
    · simp only [h2, if_true]
      rw [max_eq_left (le_of_lt h2)]
    · simp only [h2, if_false]
      rw [max_eq_right (not_lt.mp h2)]

theorem stepPitch_bounds (pitch : ℝ) (dy : Int) :
    -89 ≤ stepPitch pitch dy ∧ stepPitch pitch dy ≤ 89 := by
  rw [stepPitch_eq_clamp]
  exact ⟨le_max_left _ _, max_le (by norm_num) (min_le_right _ _)⟩

theorem cameraStep_CameraPitch (dt : ℝ) (s : State) :
    (cameraStep dt s).CameraPitch = stepPitch s.CameraPitch s.YMouseDelta := rfl

theorem cameraStep_CameraYaw (dt : ℝ) (s : State) :
    (cameraStep dt s).CameraYaw = stepYaw s.CameraYaw s.XMouseDelta := rfl

theorem frames_append_singleton (s : State) (fs : List (List Msg × ℝ)) (f : List Msg × ℝ) :
    frames s (fs ++ [f]) = cameraStep f.2 (f.1.foldl WindowMessageCallback (frames s fs)) := by
  simp [frames, frame, List.foldl_append]

/-- C2. For every starting pitch and every integer mouseDeltaY the pitch after one camera step is
clamp(pitch + 0.5 * mouseDeltaY, -89, 89), hence lies in [-89, 89]; and after each iteration of
any finite run of the render loop, whatever messages (mouse motion of either sign, keys) and frame
times the iterations receive, the pitch lies in [-89, 89]. -/
theorem C2_pitch_clamped :
    (∀ (dt : ℝ) (s : State),
      (cameraStep dt s).CameraPitch
          = max (-89) (min (s.CameraPitch + 0.5 * (s.YMouseDelta : ℝ)) 89) ∧
      -89 ≤ (cameraStep dt s).CameraPitch ∧ (cameraStep dt s).CameraPitch ≤ 89) ∧
    (∀ (s : State) (fs : List (List Msg × ℝ)) (f : List Msg × ℝ),
      -89 ≤ (frames s (fs ++ [f])).CameraPitch ∧
      (frames s (fs ++ [f])).CameraPitch ≤ 89) := by
  constructor
  · intro dt s
    rw [cameraStep_CameraPitch]
    exact ⟨stepPitch_eq_clamp _ _, stepPitch_bounds _ _⟩
  · intro s fs f
    rw [frames_append_singleton, cameraStep_CameraPitch]
    exact stepPitch_bounds _ _

/-! ## Position update -/

theorem ite_Vector3f_Add (b : Bool) (P V : Vector3f) (m : ℝ) :
    (if b = true then Vector3f_Add P (Vector3f_MultiplyScalar V m) else P) =
      Vector3f_Add P (Vector3f_MultiplyScalar V (held b * m)) := by
  cases b <;> (ext <;> simp [Vector3f_Add, Vector3f_MultiplyScalar, held])

theorem ite_Vector3f_Subtract (b : Bool) (P V : Vector3f) (m : ℝ) :
    (if b = true then Vector3f_Subtract P (Vector3f_MultiplyScalar V m) else P) =
      Vector3f_Add P (Vector3f_MultiplyScalar V (-(held b * m))) := by
  cases b <;>
    (ext <;> simp [Vector3f_Add, Vector3f_Subtract, Vector3f_MultiplyScalar, held] <;> ring)

theorem stepPosition_eq (s : State) (Forward Right Up : Vector3f) (moveSpeed : ℝ) :
    stepPosition s Forward Right Up moveSpeed =
      Vector3f_Add s.camera.Position
        (Vector3f_MultiplyScalar (keyDirection s Forward Right Up) moveSpeed) := by
  simp only [stepPosition, ite_Vector3f_Add, ite_Vector3f_Subtract, keyDirection]
  ext <;> simp only [Vector3f_Add, Vector3f_MultiplyScalar] <;> ring

theorem cameraStep_Position (dt : ℝ) (s : State) :
    (cameraStep dt s).camera.Position =
      stepPosition s (cameraStep dt s).camera.Forward (cameraStep dt s).camera.Right
        (cameraStep dt s).camera.Up (5 * dt) := rfl

/-- C3. For every starting state (position, six key flags) and every dt the position after the
camera step is old position + (5 * dt) * ((W - S) * forward + (D - A) * right + (E - Q) * up),
with each flag 1 when held and 0 otherwise and forward, right, up the basis derived in the same
step: held keys add up without normalisation.  Two opposing keys held together cancel exactly:
the new position is the one obtained with neither of them held (for W/S, A/D and E/Q). -/
theorem C3_position_update (dt : ℝ) (s : State) :
    (cameraStep dt s).camera.Position =
      Vector3f_Add s.camera.Position
        (Vector3f_MultiplyScalar
          (keyDirection s (cameraStep dt s).camera.Forward (cameraStep dt s).camera.Right
            (cameraStep dt s).camera.Up) (5 * dt)) ∧
    (cameraStep dt (setWS s true)).camera.Position =
      (cameraStep dt (setWS s false)).camera.Position ∧
    (cameraStep dt (setAD s true)).camera.Position =
      (cameraStep dt (setAD s false)).camera.Position ∧
    (cameraStep dt (setEQ s true)).camera.Position =
      (cameraStep dt (setEQ s false)).camera.Position := by
  refine ⟨?_, ?_, ?_, ?_⟩
  · rw [cameraStep_Position, stepPosition_eq]
  all_goals
    rw [cameraStep_Position, stepPosition_eq, cameraStep_Position, stepPosition_eq]
    simp [keyDirection, held, cameraStep, setWS, setAD, setEQ]

/-! ## Degenerate frame time -/

theorem stepYaw_zero_zero : stepYaw 0 0 = 0 := by
  simp [stepYaw, fmodf]

theorem stepPitch_zero_zero : stepPitch 0 0 = 0 := by
  simp only [stepPitch]
  norm_num

theorem cameraForward_zero_zero : cameraForward 0 0 = { x := 0, y := 0, z := 1 } := by
  rw [(camera_basis_eq 0 0 (by norm_num) (by norm_num)).1]
  ext <;> simp

/-- C4, counterexample. With dt = -1 (a negative frame time), the W key held and the camera in
its initial pose, the camera step moves the position from (0,0,0) to (0,0,-5): the movement is
not clamped to zero. -/
theorem C4_counterexample :
    (-1 : ℝ) ≤ 0 ∧
    (cameraStep (-1) initialStateW).camera.Position = Vector3f.mk 0 0 (-5) ∧
    (cameraStep (-1) initialStateW).camera.Position ≠ initialStateW.camera.Position := by
  have h : (cameraStep (-1) initialStateW).camera.Position = Vector3f.mk 0 0 (-5) := by
    rw [cameraStep_Position, stepPosition_eq]
    have hf : (cameraStep (-1) initialStateW).camera.Forward
        = { x := 0, y := 0, z := 1 } := by
      show cameraForward (stepYaw 0 0) (stepPitch 0 0) = _
      rw [stepYaw_zero_zero, stepPitch_zero_zero, cameraForward_zero_zero]
    rw [hf]
    ext <;>
      simp [keyDirection, held, initialState, initialStateW, Vector3f_Add,
        Vector3f_MultiplyScalar]
  refine ⟨by norm_num, h, ?_⟩
  rw [h]
  intro hne
  have hz := congrArg Vector3f.z hne
  simp [initialState, initialStateW] at hz

/-- C4, amended. The camera step does not clamp the movement: for every dt, negative ones
included, the position moves by (5 * dt) times the net key direction.  For dt = 0 and every
combination of held keys the position after the step equals the position before the step. -/
theorem C4_zero_dt_keeps_position (s : State) :
    (cameraStep 0 s).camera.Position = s.camera.Position ∧
    ∀ dt : ℝ, (cameraStep dt s).camera.Position =
      Vector3f_Add s.camera.Position
        (Vector3f_MultiplyScalar
          (keyDirection s (cameraStep dt s).camera.Forward (cameraStep dt s).camera.Right
            (cameraStep dt s).camera.Up) (5 * dt)) := by
  constructor
  · rw [cameraStep_Position, stepPosition_eq]
    ext <;> simp [Vector3f_Add, Vector3f_MultiplyScalar]
  · intro dt
    rw [cameraStep_Position, stepPosition_eq]

/-! ## Yaw wrapping -/

theorem fmodf_eq_sub_int_mul (x y : ℝ) : ∃ n : Int, fmodf x y = x - (n : ℝ) * y :=
  ⟨_, rfl⟩

theorem fmodf_360_abs_lt (x : ℝ) : |fmodf x 360| < 360 := by
  unfold fmodf
  simp only
  by_cases h : 0 ≤ x / 360
  · simp only [h, if_true]
    have h1 := Int.floor_le (x / 360)
    have h2 := Int.lt_floor_add_one (x / 360)
    rw [abs_lt]
    constructor <;> linarith
  · simp only [h, if_false]
    have h1 := Int.le_ceil (x / 360)
    have h2 := Int.ceil_lt_add_one (x / 360)
    rw [abs_lt]
    constructor <;> linarith

theorem fmodf_360_of_abs_lt (x : ℝ) (h : |x| < 360) : fmodf x 360 = x := by
  unfold fmodf
  simp only
  rw [abs_lt] at h
  by_cases hq : 0 ≤ x / 360
  · simp only [hq, if_true]
    have : ⌊x / 360⌋ = 0 := by
      rw [Int.floor_eq_zero_iff]
      exact ⟨hq, by rw [div_lt_one (by norm_num)]; exact h.2⟩
    rw [this]; simp
  · simp only [hq, if_false]
    have : ⌈x / 360⌉ = 0 := by
      rw [Int.ceil_eq_zero_iff]
      constructor
      · rw [lt_div_iff₀ (by norm_num)]; linarith
      · exact le_of_lt (not_le.mp hq)
    rw [this]; simp

theorem sin_sub_int_turns (u : ℝ) (n : Int) :
    Real.sin ((u - (n : ℝ) * 360) * degToRad) = Real.sin (u * degToRad) := by
  rw [show (u - (n : ℝ) * 360) * degToRad = u * degToRad - (n : ℝ) * (2 * Real.pi) by
    unfold degToRad; ring]
  exact Real.sin_sub_int_mul_two_pi _ _

theorem cos_sub_int_turns (u : ℝ) (n : Int) :
    Real.cos ((u - (n : ℝ) * 360) * degToRad) = Real.cos (u * degToRad) := by
  rw [show (u - (n : ℝ) * 360) * degToRad = u * degToRad - (n : ℝ) * (2 * Real.pi) by
    unfold degToRad; ring]
  exact Real.cos_sub_int_mul_two_pi _ _

theorem cameraForward_sub_int_turns (u pitch : ℝ) (n : Int) :
    cameraForward (u - (n : ℝ) * 360) pitch = cameraForward u pitch := by
  unfold cameraForward
  rw [sin_sub_int_turns, cos_sub_int_turns]

theorem cameraForward_fmodf (u pitch : ℝ) :
    cameraForward (fmodf u 360) pitch = cameraForward u pitch := by
  obtain ⟨n, hn⟩ := fmodf_eq_sub_int_mul u 360
  rw [hn, cameraForward_sub_int_turns]

/-- C5. For every starting yaw and every integer mouseDeltaX the stored yaw
fmod(yaw + 0.5 * mouseDeltaX, 360) differs from the unwrapped sum by an integer multiple of 360
and has magnitude below 360; and for every pitch in [-89, 89] the basis (forward, right, up)
derived from the stored yaw equals the basis derived from the unwrapped sum.  In particular the
yaw 360 + e gives the same three basis vectors as the yaw e. -/
theorem C5_yaw_wraps (yaw : ℝ) (mouseDeltaX : Int) (pitch : ℝ)
    (_hp0 : -89 ≤ pitch) (_hp1 : pitch ≤ 89) :
    (∃ n : Int, stepYaw yaw mouseDeltaX = (yaw + 0.5 * (mouseDeltaX : ℝ)) - (n : ℝ) * 360) ∧
    |stepYaw yaw mouseDeltaX| < 360 ∧
    cameraForward (stepYaw yaw mouseDeltaX) pitch
      = cameraForward (yaw + 0.5 * (mouseDeltaX : ℝ)) pitch ∧
    cameraRight (cameraForward (stepYaw yaw mouseDeltaX) pitch)
      = cameraRight (cameraForward (yaw + 0.5 * (mouseDeltaX : ℝ)) pitch) ∧
    cameraUp (cameraForward (stepYaw yaw mouseDeltaX) pitch)
        (cameraRight (cameraForward (stepYaw yaw mouseDeltaX) pitch))
      = cameraUp (cameraForward (yaw + 0.5 * (mouseDeltaX : ℝ)) pitch)
        (cameraRight (cameraForward (yaw + 0.5 * (mouseDeltaX : ℝ)) pitch)) ∧
    ∀ e : ℝ,
      cameraForward (360 + e) pitch = cameraForward e pitch ∧
      cameraRight (cameraForward (360 + e) pitch) = cameraRight (cameraForward e pitch) ∧
      cameraUp (cameraForward (360 + e) pitch) (cameraRight (cameraForward (360 + e) pitch))
        = cameraUp (cameraForward e pitch) (cameraRight (cameraForward e pitch)) := by
  have hsum : yaw + (mouseDeltaX : ℝ) * 0.5 = yaw + 0.5 * (mouseDeltaX : ℝ) := by ring
  have hf : cameraForward (stepYaw yaw mouseDeltaX) pitch
      = cameraForward (yaw + 0.5 * (mouseDeltaX : ℝ)) pitch := by
    rw [stepYaw, cameraForward_fmodf, hsum]
  refine ⟨?_, ?_, hf, by rw [hf], by rw [hf], ?_⟩
  · rw [stepYaw, hsum]
    exact fmodf_eq_sub_int_mul _ _
  · rw [stepYaw]
    exact fmodf_360_abs_lt _
  · intro e
    have he : cameraForward (360 + e) pitch = cameraForward e pitch := by
      have := cameraForward_sub_int_turns e pitch (-1)
      rw [← this]
      congr 1
      push_cast
      ring
    exact ⟨he, by rw [he], by rw [he]⟩

/-- C5 at yaw 350, mouseDeltaX 40 and pitch 10. -/
theorem C5_yaw_wraps_witness :
    (-89 : ℝ) ≤ 10 ∧ (10 : ℝ) ≤ 89 ∧
    (∃ n : Int, stepYaw 350 40 = (350 + 0.5 * ((40 : Int) : ℝ)) - (n : ℝ) * 360) ∧
    |stepYaw 350 40| < 360 ∧
    cameraForward (stepYaw 350 40) 10 = cameraForward (350 + 0.5 * ((40 : Int) : ℝ)) 10 :=
  ⟨by norm_num, by norm_num,
    (C5_yaw_wraps 350 40 10 (by norm_num) (by norm_num)).1,
    (C5_yaw_wraps 350 40 10 (by norm_num) (by norm_num)).2.1,
    (C5_yaw_wraps 350 40 10 (by norm_num) (by norm_num)).2.2.1⟩

/-! ## Consumption of the mouse deltas -/

theorem stepPitch_of_mem (pitch : ℝ) (h0 : -89 ≤ pitch) (h1 : pitch ≤ 89) :
    stepPitch pitch 0 = pitch := by
  rw [stepPitch_eq_clamp]
  simp [min_eq_left h1, max_eq_right h0]

theorem stepYaw_of_abs_lt (yaw : ℝ) (h : |yaw| < 360) : stepYaw yaw 0 = yaw := by
  rw [stepYaw]
  simp only [Int.cast_zero, zero_mul, add_zero]
  exact fmodf_360_of_abs_lt yaw h

namespace GFloat

@[simp] theorem neg_fin (a : ℝ) : -fin a = fin (-a) := rfl

@[simp] theorem fin_add_fin (a b : ℝ) : fin a + fin b = fin (a + b) := rfl

@[simp] theorem fin_sub_fin (a b : ℝ) : fin a - fin b = fin (a - b) := by
  show fin (a + -b) = fin (a - b)
  rw [sub_eq_add_neg]

@[simp] theorem fin_mul_fin (a b : ℝ) : fin a * fin b = fin (a * b) := rfl

theorem fin_div_fin (a b : ℝ) (hb : b ≠ 0) : fin a / fin b = fin (a / b) := by
  show div (fin a) (fin b) = _
  simp [div, hb]

@[simp] theorem lt_fin_fin (a b : ℝ) : lt (fin a) (fin b) = decide (a < b) := rfl

theorem sqrt_fin (a : ℝ) (ha : 0 ≤ a) : sqrt (fin a) = fin (Real.sqrt a) := by
  simp [sqrt, not_lt.mpr ha]

@[simp] theorem abs_fin (a : ℝ) : abs (fin a) = fin |a| := rfl

end GFloat

theorem toVec3_sub (a b : Vector3f) :
    a.toVec3 - b.toVec3 = (Vector3f_Subtract a b).toVec3 := by
  show vec3.mk _ _ _ = _
  simp [Vector3f.toVec3, Vector3f_Subtract]

theorem toVec3_add (a b : Vector3f) :
    a.toVec3 + b.toVec3 = (Vector3f_Add a b).toVec3 := by
  show vec3.mk _ _ _ = _
  simp [Vector3f.toVec3, Vector3f_Add]

theorem toVec3_mul_fin (a : Vector3f) (s : ℝ) :
    a.toVec3 * GFloat.fin s = (Vector3f_MultiplyScalar a s).toVec3 := by
  show vec3.mk _ _ _ = _
  simp [Vector3f.toVec3, Vector3f_MultiplyScalar]

theorem dot_toVec3 (a b : Vector3f) :
    dot a.toVec3 b.toVec3 = GFloat.fin (Vector3f_Dot a b) := by
  simp [dot, Vector3f.toVec3, Vector3f_Dot]

theorem Vector3f_SqrLength_nonneg (v : Vector3f) : 0 ≤ Vector3f_SqrLength v := by
  unfold Vector3f_SqrLength
  nlinarith [mul_self_nonneg v.x, mul_self_nonneg v.y, mul_self_nonneg v.z]

theorem Vector3f_Length_nonneg (v : Vector3f) : 0 ≤ Vector3f_Length v :=
  Real.sqrt_nonneg _

theorem Vector3f_Length_mul_self (v : Vector3f) :
    Vector3f_Length v * Vector3f_Length v = Vector3f_SqrLength v :=
  Real.mul_self_sqrt (Vector3f_SqrLength_nonneg v)

theorem length_toVec3 (a : Vector3f) :
    length a.toVec3 = GFloat.fin (Vector3f_Length a) := by
  rw [length, dot_toVec3]
  exact GFloat.sqrt_fin _ (Vector3f_SqrLength_nonneg a)

/-! ## Sphere intersection on ordinary numbers -/

theorem IntersectSphere_t_toVec3 (o d c : Vector3f) :
    IntersectSphere_t o.toVec3 d.toVec3 c.toVec3 = GFloat.fin (sphereT o d c) := by
  rw [IntersectSphere_t, toVec3_sub, dot_toVec3, sphereT]

theorem IntersectSphere_y_toVec3 (o d c : Vector3f) :
    IntersectSphere_y o.toVec3 d.toVec3 c.toVec3 = GFloat.fin (closestApproach o d c) := by
  simp only [IntersectSphere_y, IntersectSphere_t_toVec3, toVec3_mul_fin, toVec3_add,
    toVec3_sub, length_toVec3, closestApproach, rayPoint]

/-- The sphere intersection of the shader on ordinary numbers, in terms of real arithmetic. -/
theorem IntersectSphere_toVec3 (o d c : Vector3f) (r : ℝ) :
    IntersectSphere o.toVec3 d.toVec3 c.toVec3 (GFloat.fin r) =
      if closestApproach o d c < r then
        if sphereT o d c
            - Real.sqrt (r * r - closestApproach o d c * closestApproach o d c) < 0 then
          { Hit := false
            Distance := some (GFloat.fin (sphereT o d c
              - Real.sqrt (r * r - closestApproach o d c * closestApproach o d c)))
            Point := none, Normal := none }
        else
          { Hit := true
            Distance := some (GFloat.fin (sphereT o d c
              - Real.sqrt (r * r - closestApproach o d c * closestApproach o d c)))
            Point := some (rayPoint o d (sphereT o d c
              - Real.sqrt (r * r - closestApproach o d c * closestApproach o d c))).toVec3
            Normal := some (sphereNormal (rayPoint o d (sphereT o d c
              - Real.sqrt (r * r - closestApproach o d c * closestApproach o d c))) c r).toVec3 }
      else
        { Hit := false, Distance := none, Point := none, Normal := none } := by
  have hy0 : 0 ≤ closestApproach o d c := Vector3f_Length_nonneg _
  simp only [IntersectSphere, IntersectSphere_x, IntersectSphere_t_toVec3,
    IntersectSphere_y_toVec3, GFloat.lt_fin_fin, decide_eq_true_eq, GFloat.fin_mul_fin,
    GFloat.fin_sub_fin]
  by_cases hy : closestApproach o d c < r
  · have hr : 0 < r := lt_of_le_of_lt hy0 hy
    have hx : 0 ≤ r * r - closestApproach o d c * closestApproach o d c := by nlinarith
    simp only [hy, if_true, GFloat.sqrt_fin _ hx, GFloat.fin_sub_fin, GFloat.lt_fin_fin,
      decide_eq_true_eq, toVec3_mul_fin, toVec3_add, toVec3_sub]
    split
    · rfl
    · congr 2
      show vec3.mk _ _ _ = _
      simp [Vector3f.toVec3, sphereNormal, Vector3f_Subtract, rayPoint,
        GFloat.fin_div_fin _ _ (ne_of_gt hr)]
  · simp only [hy, if_false]

/-! ## Geometry of a line and a sphere -/

theorem Vector3f_Length_eq_iff (v : Vector3f) (l : ℝ) (hl : 0 ≤ l) :
    Vector3f_Length v = l ↔ Vector3f_SqrLength v = l * l :=
  Real.sqrt_eq_iff_mul_self_eq (Vector3f_SqrLength_nonneg v) hl

theorem Vector3f_Length_lt_iff (v : Vector3f) (l : ℝ) (hl : 0 < l) :
    Vector3f_Length v < l ↔ Vector3f_SqrLength v < l * l := by
  rw [Vector3f_Length, Real.sqrt_lt' hl, sq]

theorem lt_Vector3f_Length_iff (v : Vector3f) (l : ℝ) (hl : 0 ≤ l) :
    l < Vector3f_Length v ↔ l * l < Vector3f_SqrLength v := by
  rw [Vector3f_Length, Real.lt_sqrt hl, sq]

theorem closestApproach_nonneg (o d c : Vector3f) : 0 ≤ closestApproach o d c :=
  Vector3f_Length_nonneg _

theorem closestApproach_mul_self (o d c : Vector3f) :
    closestApproach o d c * closestApproach o d c =
      Vector3f_SqrLength (Vector3f_Subtract c (rayPoint o d (sphereT o d c))) :=
  Vector3f_Length_mul_self _

/-- Pythagoras along the line: the squared distance from `c` to the point at parameter `u` is
the squared closest approach plus the squared parameter offset from the foot. -/
theorem sqrLength_rayPoint (o d c : Vector3f) (hd : Vector3f_SqrLength d = 1) (u : ℝ) :
    Vector3f_SqrLength (Vector3f_Subtract (rayPoint o d u) c) =
      closestApproach o d c * closestApproach o d c
        + (u - sphereT o d c) * (u - sphereT o d c) := by
  rw [closestApproach_mul_self]
  simp only [Vector3f_SqrLength, Vector3f_Subtract, rayPoint, Vector3f_Add,
    Vector3f_MultiplyScalar, sphereT, Vector3f_Dot] at hd ⊢
  linear_combination
    (u * u - ((c.x - o.x) * d.x + (c.y - o.y) * d.y + (c.z - o.z) * d.z)
      * ((c.x - o.x) * d.x + (c.y - o.y) * d.y + (c.z - o.z) * d.z)) * hd

theorem rayPoint_zero (o d : Vector3f) : rayPoint o d 0 = o := by
  ext <;> simp [rayPoint, Vector3f_Add, Vector3f_MultiplyScalar]

/-- The closest approach is the least distance from `c` to a point of the line. -/
theorem closestApproach_le (o d c : Vector3f) (hd : Vector3f_SqrLength d = 1) (u : ℝ) :
    closestApproach o d c ≤ Vector3f_Length (Vector3f_Subtract (rayPoint o d u) c) := by
  rw [Vector3f_Length, Real.le_sqrt (closestApproach_nonneg o d c) (Vector3f_SqrLength_nonneg _),
    sq, sqrLength_rayPoint o d c hd u]
  nlinarith [mul_self_nonneg (u - sphereT o d c)]

/-- The closest approach is attained at the parameter `sphereT`. -/
theorem closestApproach_attained (o d c : Vector3f) (hd : Vector3f_SqrLength d = 1) :
    Vector3f_Length (Vector3f_Subtract (rayPoint o d (sphereT o d c)) c)
      = closestApproach o d c := by
  rw [Vector3f_Length_eq_iff _ _ (closestApproach_nonneg o d c), sqrLength_rayPoint o d c hd]
  ring

theorem sphereNormal_length (P c : Vector3f) (r : ℝ) (hr : 0 < r)
    (hP : Vector3f_SqrLength (Vector3f_Subtract P c) = r * r) :
    Vector3f_Length (sphereNormal P c r) = 1 := by
  rw [Vector3f_Length_eq_iff _ _ zero_le_one]
  simp only [Vector3f_SqrLength, sphereNormal, Vector3f_Subtract] at hP ⊢
  have hr0 : r ≠ 0 := ne_of_gt hr
  field_simp
  linear_combination hP

theorem sphereNormal_parallel (P c : Vector3f) (r : ℝ) :
    sphereNormal P c r = Vector3f_MultiplyScalar (Vector3f_Subtract P c) (1 / r) := by
  ext <;> simp [sphereNormal, Vector3f_MultiplyScalar, Vector3f_Subtract, div_eq_mul_inv]

/-- The near root: if the point at parameter `s ≥ 0` is the first one of the ray on the sphere,
the origin is outside and the line is not tangent, then `s = t - sqrt (r² - y²)`. -/
theorem near_root (o d c : Vector3f) (r s : ℝ) (hr : 0 < r)
    (hd : Vector3f_SqrLength d = 1)
    (hout : r < Vector3f_Length (Vector3f_Subtract o c))
    (hs : 0 ≤ s)
    (hP : Vector3f_Length (Vector3f_Subtract (rayPoint o d s) c) = r)
    (hfirst : ∀ u : ℝ, 0 ≤ u → u < s →
      Vector3f_Length (Vector3f_Subtract (rayPoint o d u) c) ≠ r) :
    sphereT o d c
      - Real.sqrt (r * r - closestApproach o d c * closestApproach o d c) = s := by
  have hP2 := (Vector3f_Length_eq_iff _ _ hr.le).mp hP
  rw [sqrLength_rayPoint o d c hd] at hP2
  have hout2 := (lt_Vector3f_Length_iff _ _ hr.le).mp hout
  have h0 := sqrLength_rayPoint o d c hd 0
  rw [rayPoint_zero] at h0
  rw [h0] at hout2
  -- the parameter `s` is not beyond the foot of the perpendicular
  have hst : s ≤ sphereT o d c := by
    by_contra hcon
    push_neg at hcon
    by_cases hm : 0 ≤ 2 * sphereT o d c - s
    · apply hfirst (2 * sphereT o d c - s) hm (by linarith)
      rw [Vector3f_Length_eq_iff _ _ hr.le, sqrLength_rayPoint o d c hd]
      linarith
    · push_neg at hm
      nlinarith [mul_nonneg hs (le_of_lt (by linarith : 0 < s - 2 * sphereT o d c))]
  have hx : Real.sqrt (r * r - closestApproach o d c * closestApproach o d c)
      = sphereT o d c - s := by
    rw [Real.sqrt_eq_iff_mul_self_eq (by nlinarith [mul_self_nonneg (s - sphereT o d c)])
      (by linarith)]
    linarith
  rw [hx]
  ring

/-- C7, counterexample. The ray from (-1, 1, 0) in direction (1, 0, 0) is tangent to the unit
sphere centred at the origin: it passes through the surface point (0, 1, 0) at parameter 1, the
origin of the ray is outside the sphere, and no earlier point of the ray is on the sphere.  All
the conditions of the claim hold, yet `IntersectSphere` reports no hit. -/
theorem C7_counterexample :
    (0 : ℝ) < 1 ∧
    Vector3f_Length (Vector3f.mk 1 0 0) = 1 ∧
    (1 : ℝ) < Vector3f_Length
      (Vector3f_Subtract (Vector3f.mk (-1) 1 0) (Vector3f.mk 0 0 0)) ∧
    (0 : ℝ) ≤ 1 ∧
    rayPoint (Vector3f.mk (-1) 1 0) (Vector3f.mk 1 0 0) 1
      = (Vector3f.mk 0 1 0) ∧
    Vector3f_Length (Vector3f_Subtract
      (rayPoint (Vector3f.mk (-1) 1 0) (Vector3f.mk 1 0 0) 1)
      (Vector3f.mk 0 0 0)) = 1 ∧
    (∀ u : ℝ, 0 ≤ u → u < 1 →
      Vector3f_Length (Vector3f_Subtract
        (rayPoint (Vector3f.mk (-1) 1 0) (Vector3f.mk 1 0 0) u)
        (Vector3f.mk 0 0 0)) ≠ 1) ∧
    (IntersectSphere (Vector3f.toVec3 (Vector3f.mk (-1) 1 0))
      (Vector3f.toVec3 (Vector3f.mk 1 0 0))
      (Vector3f.toVec3 (Vector3f.mk 0 0 0)) (GFloat.fin 1)).Hit = false := by
  refine ⟨one_pos, ?_, ?_, zero_le_one, ?_, ?_, ?_, ?_⟩
  · rw [Vector3f_Length_eq_iff _ _ zero_le_one]
    norm_num [Vector3f_SqrLength]
  · rw [lt_Vector3f_Length_iff _ _ zero_le_one]
    norm_num [Vector3f_SqrLength, Vector3f_Subtract]
  · ext <;> norm_num [rayPoint, Vector3f_Add, Vector3f_MultiplyScalar]
  · rw [Vector3f_Length_eq_iff _ _ zero_le_one]
    norm_num [Vector3f_SqrLength, Vector3f_Subtract, rayPoint, Vector3f_Add,
      Vector3f_MultiplyScalar]
  · intro u _ hu1
    rw [Ne, Vector3f_Length_eq_iff _ _ zero_le_one]
    simp only [Vector3f_SqrLength, Vector3f_Subtract, rayPoint, Vector3f_Add,
      Vector3f_MultiplyScalar]
    intro h
    nlinarith [mul_pos (sub_pos.mpr hu1) (sub_pos.mpr hu1)]
  · rw [IntersectSphere_toVec3]
    have hy : ¬ closestApproach (Vector3f.mk (-1) 1 0) (Vector3f.mk 1 0 0)
        (Vector3f.mk 0 0 0) < 1 := by
      rw [closestApproach, Vector3f_Length_lt_iff _ _ one_pos]
      norm_num [Vector3f_SqrLength, Vector3f_Subtract, rayPoint, Vector3f_Add,
        Vector3f_MultiplyScalar, sphereT, Vector3f_Dot]
    rw [if_neg hy]

/-- C7, amended. For every sphere with radius r > 0, every ray origin outside the sphere and
every unit ray direction such that the ray passes through a point P of the surface at parameter
s >= 0, P being the first point where the ray meets the sphere, and the ray is not tangent to the
sphere (the closest approach of its line to the centre is below r): `IntersectSphere` reports
Hit = true with Distance = s, which is the near root t - sqrt(r^2 - y^2), Point = P and
Normal = (P - center) / r; the normal has length exactly 1 and is (1/r) * (P - center). -/
theorem C7_sphere_round_trip (o d c : Vector3f) (r s : ℝ) (hr : 0 < r)
    (hd : Vector3f_Length d = 1)
    (hout : r < Vector3f_Length (Vector3f_Subtract o c))
    (hs : 0 ≤ s)
    (hP : Vector3f_Length (Vector3f_Subtract (rayPoint o d s) c) = r)
    (hfirst : ∀ u : ℝ, 0 ≤ u → u < s →
      Vector3f_Length (Vector3f_Subtract (rayPoint o d u) c) ≠ r)
    (hnt : closestApproach o d c < r) :
    IntersectSphere o.toVec3 d.toVec3 c.toVec3 (GFloat.fin r) =
      Hit.mk true (some (GFloat.fin s)) (some (rayPoint o d s).toVec3)
        (some (sphereNormal (rayPoint o d s) c r).toVec3) ∧
    s = sphereT o d c
      - Real.sqrt (r * r - closestApproach o d c * closestApproach o d c) ∧
    Vector3f_Length (sphereNormal (rayPoint o d s) c r) = 1 ∧
    sphereNormal (rayPoint o d s) c r
      = Vector3f_MultiplyScalar (Vector3f_Subtract (rayPoint o d s) c) (1 / r) := by
  have hd2 : Vector3f_SqrLength d = 1 := by
    have := (Vector3f_Length_eq_iff d 1 zero_le_one).mp hd
    linarith
  have hroot := near_root o d c r s hr hd2 hout hs hP hfirst
  refine ⟨?_, hroot.symm, ?_, sphereNormal_parallel _ _ _⟩
  · rw [IntersectSphere_toVec3, if_pos hnt, hroot, if_neg (not_lt.mpr hs)]
  · exact sphereNormal_length _ _ _ hr ((Vector3f_Length_eq_iff _ _ hr.le).mp hP)

/-- C7 at the sphere of the shader: centre (0,0,12), radius 10, ray from the origin along +z,
first surface point (0,0,2) at parameter 2. -/
theorem C7_sphere_round_trip_witness :
    IntersectSphere (Vector3f.toVec3 (Vector3f.mk 0 0 0)) (Vector3f.toVec3 (Vector3f.mk 0 0 1))
        (Vector3f.toVec3 (Vector3f.mk 0 0 12)) (GFloat.fin 10) =
      Hit.mk true (some (GFloat.fin 2))
        (some (rayPoint (Vector3f.mk 0 0 0) (Vector3f.mk 0 0 1) 2).toVec3)
        (some (sphereNormal (rayPoint (Vector3f.mk 0 0 0) (Vector3f.mk 0 0 1) 2)
          (Vector3f.mk 0 0 12) 10).toVec3) :=
  (C7_sphere_round_trip (Vector3f.mk 0 0 0) (Vector3f.mk 0 0 1)
    (Vector3f.mk 0 0 12) 10 2 (by norm_num)
    (by rw [Vector3f_Length_eq_iff _ _ zero_le_one]; norm_num [Vector3f_SqrLength])
    (by rw [lt_Vector3f_Length_iff _ _ (by norm_num)]
        norm_num [Vector3f_SqrLength, Vector3f_Subtract])
    (by norm_num)
    (by rw [Vector3f_Length_eq_iff _ _ (by norm_num)]
        norm_num [Vector3f_SqrLength, Vector3f_Subtract, rayPoint, Vector3f_Add,
          Vector3f_MultiplyScalar])
    (by intro u _ hu2
        rw [Ne, Vector3f_Length_eq_iff _ _ (by norm_num)]
        simp only [Vector3f_SqrLength, Vector3f_Subtract, rayPoint, Vector3f_Add,
          Vector3f_MultiplyScalar]
        intro h
        nlinarith [mul_pos (sub_pos.mpr hu2) (sub_pos.mpr hu2)])
    (by rw [closestApproach, Vector3f_Length_lt_iff _ _ (by norm_num)]
        norm_num [Vector3f_SqrLength, Vector3f_Subtract, rayPoint, Vector3f_Add,
          Vector3f_MultiplyScalar, sphereT, Vector3f_Dot])).1

/-! ## Sphere miss conditions -/

/-- On ordinary numbers the shader reports a sphere hit exactly when the closest approach is
below the radius and the near root is not negative. -/
theorem IntersectSphere_Hit_iff (o d c : Vector3f) (r : ℝ) :
    (IntersectSphere o.toVec3 d.toVec3 c.toVec3 (GFloat.fin r)).Hit = true ↔
      closestApproach o d c < r ∧
      0 ≤ sphereT o d c
        - Real.sqrt (r * r - closestApproach o d c * closestApproach o d c) := by
  rw [IntersectSphere_toVec3]
  by_cases hy : closestApproach o d c < r
  · rw [if_pos hy]
    by_cases hD : sphereT o d c
        - Real.sqrt (r * r - closestApproach o d c * closestApproach o d c) < 0
    · rw [if_pos hD]
      simp only [Bool.false_eq_true, false_iff, not_and, not_le]
      exact fun _ => hD
    · rw [if_neg hD]
      simp only [true_iff]
      exact ⟨hy, not_lt.mp hD⟩
  · rw [if_neg hy]
    simp [hy]

/-- C8. With a unit ray direction and a radius r > 0: the closest approach used below is the
least distance from the centre to a point of the ray's line; `IntersectSphere` reports
Hit = false whenever that closest approach is >= r, whenever the ray origin lies strictly inside
the sphere, and whenever the sphere lies behind the origin (dot(center - origin, dir) <= 0);
and Hit = true implies closest approach < r, |origin - center| >= r and
dot(center - origin, dir) > 0. -/
theorem C8_sphere_miss (o d c : Vector3f) (r : ℝ) (hr : 0 < r) (hd : Vector3f_Length d = 1) :
    (∀ u : ℝ, closestApproach o d c
      ≤ Vector3f_Length (Vector3f_Subtract (rayPoint o d u) c)) ∧
    Vector3f_Length (Vector3f_Subtract (rayPoint o d (sphereT o d c)) c)
      = closestApproach o d c ∧
    (r ≤ closestApproach o d c →
      (IntersectSphere o.toVec3 d.toVec3 c.toVec3 (GFloat.fin r)).Hit = false) ∧
    (Vector3f_Length (Vector3f_Subtract o c) < r →
      (IntersectSphere o.toVec3 d.toVec3 c.toVec3 (GFloat.fin r)).Hit = false) ∧
    (Vector3f_Dot (Vector3f_Subtract c o) d ≤ 0 →
      (IntersectSphere o.toVec3 d.toVec3 c.toVec3 (GFloat.fin r)).Hit = false) ∧
    ((IntersectSphere o.toVec3 d.toVec3 c.toVec3 (GFloat.fin r)).Hit = true →
      closestApproach o d c < r ∧ r ≤ Vector3f_Length (Vector3f_Subtract o c) ∧
      0 < Vector3f_Dot (Vector3f_Subtract c o) d) := by
  have hd2 : Vector3f_SqrLength d = 1 := by
    have := (Vector3f_Length_eq_iff d 1 zero_le_one).mp hd
    linarith
  have hy0 := closestApproach_nonneg o d c
  have h0 := sqrLength_rayPoint o d c hd2 0
  rw [rayPoint_zero] at h0
  -- what a hit implies
  have key : (IntersectSphere o.toVec3 d.toVec3 c.toVec3 (GFloat.fin r)).Hit = true →
      closestApproach o d c < r ∧ r ≤ Vector3f_Length (Vector3f_Subtract o c) ∧
      0 < sphereT o d c := by
    intro hit
    obtain ⟨hy, hD⟩ := (IntersectSphere_Hit_iff o d c r).mp hit
    have hpos : 0 < r * r - closestApproach o d c * closestApproach o d c := by nlinarith
    have hx := Real.sqrt_pos.mpr hpos
    have hxx := Real.mul_self_sqrt hpos.le
    refine ⟨hy, ?_, by linarith⟩
    rw [Vector3f_Length, Real.le_sqrt hr.le (Vector3f_SqrLength_nonneg _), sq, h0]
    nlinarith
  have miss : ∀ P : Prop, (P → ¬ (closestApproach o d c < r ∧
      r ≤ Vector3f_Length (Vector3f_Subtract o c) ∧ 0 < sphereT o d c)) → P →
      (IntersectSphere o.toVec3 d.toVec3 c.toVec3 (GFloat.fin r)).Hit = false := by
    intro P hP hp
    cases hh : (IntersectSphere o.toVec3 d.toVec3 c.toVec3 (GFloat.fin r)).Hit
    · rfl
    · exact absurd (key hh) (hP hp)
  refine ⟨closestApproach_le o d c hd2, closestApproach_attained o d c hd2, ?_, ?_, ?_, key⟩
  · exact miss _ fun h1 h2 => absurd h2.1 (not_lt.mpr h1)
  · exact miss _ fun h1 h2 => absurd h2.2.1 (not_le.mpr h1)
  · exact miss _ fun h1 h2 => absurd h2.2.2 (not_lt.mpr h1)

/-- C8 at the sphere of the shader with a ray from the origin pointing away from it (along -z):
the sphere is behind the origin and the shader reports no hit. -/
theorem C8_sphere_miss_witness :
    (IntersectSphere (Vector3f.toVec3 (Vector3f.mk 0 0 0))
        (Vector3f.toVec3 (Vector3f.mk 0 0 (-1)))
        (Vector3f.toVec3 (Vector3f.mk 0 0 12)) (GFloat.fin 10)).Hit = false :=
  (C8_sphere_miss (Vector3f.mk 0 0 0) (Vector3f.mk 0 0 (-1))
    (Vector3f.mk 0 0 12) 10 (by norm_num)
    (by rw [Vector3f_Length_eq_iff _ _ zero_le_one]; norm_num [Vector3f_SqrLength])).2.2.2.2.1
    (by norm_num [Vector3f_Dot, Vector3f_Subtract])

/-! ## Box intersection along the z axis

The x and y direction components are zero here, so `1.0 / rayDir` is infinite in x and y and the
x and y slab distances are `NaN`; what is proved holds for every `NaNChoice`. -/

namespace GFloat

theorem div_def (a b : GFloat) : a / b = div a b := rfl
theorem mul_def (a b : GFloat) : a * b = mul a b := rfl
theorem add_def (a b : GFloat) : a + b = add a b := rfl
theorem sub_def (a b : GFloat) : a - b = add a (neg b) := rfl
theorem neg_def (a : GFloat) : -a = neg a := rfl

end GFloat

theorem vec3_neg_def (a : vec3) : -a = { x := -a.x, y := -a.y, z := -a.z } := rfl
theorem vec3_add_def (a b : vec3) :
    a + b = { x := a.x + b.x, y := a.y + b.y, z := a.z + b.z } := rfl
theorem vec3_sub_def (a b : vec3) :
    a - b = { x := a.x - b.x, y := a.y - b.y, z := a.z - b.z } := rfl
theorem vec3_mul_def (a b : vec3) :
    a * b = { x := a.x * b.x, y := a.y * b.y, z := a.z * b.z } := rfl
theorem vec3_smul_def (a : vec3) (s : GFloat) :
    a * s = { x := a.x * s, y := a.y * s, z := a.z * s } := rfl
theorem vec3_sdiv_def (a : vec3) (s : GFloat) :
    a / s = { x := a.x / s, y := a.y / s, z := a.z / s } := rfl
theorem vec3_rdiv_def (s : GFloat) (a : vec3) :
    s / a = { x := s / a.x, y := s / a.y, z := s / a.z } := rfl

/-- The reciprocal of a direction along the z axis: the x and y components are `+Inf`. -/
theorem m_axis (c : ℝ) (hc : c ≠ 0) :
    IntersectAABB_m (vec3.mk (GFloat.fin 0) (GFloat.fin 0) (GFloat.fin c)) =
      vec3.mk GFloat.pinf GFloat.pinf (GFloat.fin (1 / c)) := by
  simp [IntersectAABB_m, vec3_rdiv_def, GFloat.div_def, GFloat.div, hc]

/-- The near distances for a ray along the z axis through the box centre line: `0 * Inf` makes
the x and y ones `NaN`. -/
theorem t1_axis (a b c e : ℝ) (hc : c ≠ 0) :
    IntersectAABB_t1 (vec3.mk (GFloat.fin 0) (GFloat.fin 0) (GFloat.fin a))
        (vec3.mk (GFloat.fin 0) (GFloat.fin 0) (GFloat.fin c))
        (vec3.mk (GFloat.fin 0) (GFloat.fin 0) (GFloat.fin b))
        (vec3.splat (GFloat.fin e)) =
      vec3.mk GFloat.nan GFloat.nan (GFloat.fin (-(1 / c * (a - b)) - |1 / c| * e)) := by
  simp only [IntersectAABB_t1, m_axis c hc, vabs, vec3.splat, vec3_sub_def, vec3_mul_def,
    vec3_neg_def]
  simp [GFloat.mul_def, GFloat.mul, GFloat.mulInf, GFloat.sub_def, GFloat.neg_def, GFloat.neg,
    GFloat.add, GFloat.abs]
  ring

/-- The far distances for a ray along the z axis through the box centre line. -/
theorem t2_axis (a b c e : ℝ) (hc : c ≠ 0) :
    IntersectAABB_t2 (vec3.mk (GFloat.fin 0) (GFloat.fin 0) (GFloat.fin a))
        (vec3.mk (GFloat.fin 0) (GFloat.fin 0) (GFloat.fin c))
        (vec3.mk (GFloat.fin 0) (GFloat.fin 0) (GFloat.fin b))
        (vec3.splat (GFloat.fin e)) =
      vec3.mk GFloat.nan GFloat.nan (GFloat.fin (-(1 / c * (a - b)) + |1 / c| * e)) := by
  simp only [IntersectAABB_t2, m_axis c hc, vabs, vec3.splat, vec3_sub_def, vec3_mul_def,
    vec3_neg_def, vec3_add_def]
  simp [GFloat.mul_def, GFloat.mul, GFloat.mulInf, GFloat.sub_def, GFloat.neg_def, GFloat.neg,
    GFloat.add_def, GFloat.add, GFloat.abs]
  left
  ring

/-- Normalising a vector of ordinary numbers whose squared length is one keeps it. -/
theorem normalize_of_unit (sx sy sz : ℝ) (h : sx * sx + sy * sy + sz * sz = 1) :
    normalize (vec3.mk (GFloat.fin sx) (GFloat.fin sy) (GFloat.fin sz)) =
      vec3.mk (GFloat.fin sx) (GFloat.fin sy) (GFloat.fin sz) := by
  have hone : (1 : ℝ) ≠ 0 := one_ne_zero
  simp only [normalize, length, dot, GFloat.fin_mul_fin, GFloat.fin_add_fin, h,
    GFloat.sqrt_fin 1 zero_le_one, Real.sqrt_one, vec3_sdiv_def, GFloat.fin_div_fin _ _ hone,
    div_one]

namespace GFloat

theorem max_nan_nan (c : NaNChoice) : max c nan nan = nan := by
  unfold max
  split_ifs <;> rfl

theorem max_nan_fin (c : NaNChoice) (a : ℝ) :
    max c nan (fin a) = if c.maxLt nan (fin a) then fin a else nan := by
  simp [max, isNaN]

theorem min_nan_nan (c : NaNChoice) : min c nan nan = nan := by
  unfold min
  split_ifs <;> rfl

theorem min_nan_fin (c : NaNChoice) (a : ℝ) :
    min c nan (fin a) = if c.minLt nan (fin a) then fin a else nan := by
  simp [min, isNaN]

theorem step_nan_left (c : NaNChoice) (x : GFloat) :
    step c nan x = if c.stepLt nan x then fin 0 else fin 1 := by
  simp [step, isNaN]

theorem step_nan_right (c : NaNChoice) (edge : GFloat) :
    step c edge nan = if c.stepLt edge nan then fin 0 else fin 1 := by
  simp [step, isNaN]

end GFloat

/-- The near distance `tN` for a ray along the z axis through the box centre line: the near
distance of the z slab or `NaN`, as the implementation's `max` decides. -/
theorem tN_axis (c : NaNChoice) (a b d e : ℝ) (hd : d ≠ 0) :
    IntersectAABB_tN c (vec3.mk (GFloat.fin 0) (GFloat.fin 0) (GFloat.fin a))
        (vec3.mk (GFloat.fin 0) (GFloat.fin 0) (GFloat.fin d))
        (vec3.mk (GFloat.fin 0) (GFloat.fin 0) (GFloat.fin b))
        (vec3.splat (GFloat.fin e)) =
      if c.maxLt GFloat.nan (GFloat.fin (-(1 / d * (a - b)) - |1 / d| * e)) then
        GFloat.fin (-(1 / d * (a - b)) - |1 / d| * e)
      else GFloat.nan := by
  simp only [IntersectAABB_tN, t1_axis a b d e hd, GFloat.max_nan_nan, GFloat.max_nan_fin]

/-- The far distance `tF` for a ray along the z axis through the box centre line: the far
distance of the z slab or `NaN`, as the implementation's `min` decides. -/
theorem tF_axis (c : NaNChoice) (a b d e : ℝ) (hd : d ≠ 0) :
    IntersectAABB_tF c (vec3.mk (GFloat.fin 0) (GFloat.fin 0) (GFloat.fin a))
        (vec3.mk (GFloat.fin 0) (GFloat.fin 0) (GFloat.fin d))
        (vec3.mk (GFloat.fin 0) (GFloat.fin 0) (GFloat.fin b))
        (vec3.splat (GFloat.fin e)) =
      if c.minLt GFloat.nan (GFloat.fin (-(1 / d * (a - b)) + |1 / d| * e)) then
        GFloat.fin (-(1 / d * (a - b)) + |1 / d| * e)
      else GFloat.nan := by
  simp only [IntersectAABB_tF, t2_axis a b d e hd, GFloat.min_nan_nan, GFloat.min_nan_fin]

/-- Normalising the zero vector divides zero by zero. -/
theorem normalize_zero :
    normalize (vec3.mk (GFloat.fin 0) (GFloat.fin 0) (GFloat.fin 0)) =
      vec3.mk GFloat.nan GFloat.nan GFloat.nan := by
  simp [normalize, length, dot, vec3_sdiv_def, GFloat.sqrt, GFloat.div_def, GFloat.div]

/-- The box test for a ray along the z axis (direction component `d = 1` or `d = -1`) through
the box centre line, when the z slab has `0 ≤ near ≤ far`: on every implementation no comparison
of the miss test holds and a hit is reported.  The normal is `(0, 0, -d)` if the implementation's
`step` returns `1.0` for a `NaN` edge, and the normalised zero vector otherwise. -/
theorem IntersectAABB_axis (c : NaNChoice) (a b d e near far : ℝ) (hd : d = 1 ∨ d = -1)
    (hnear : -(1 / d * (a - b)) - |1 / d| * e = near)
    (hfar : -(1 / d * (a - b)) + |1 / d| * e = far)
    (h0 : 0 ≤ near) (h1 : near ≤ far) :
    IntersectAABB c (vec3.mk (GFloat.fin 0) (GFloat.fin 0) (GFloat.fin a))
        (vec3.mk (GFloat.fin 0) (GFloat.fin 0) (GFloat.fin d))
        (vec3.mk (GFloat.fin 0) (GFloat.fin 0) (GFloat.fin b))
        (vec3.splat (GFloat.fin e)) =
      Hit.mk true none none
        (some (if c.stepLt GFloat.nan (GFloat.fin near) then
            vec3.mk GFloat.nan GFloat.nan GFloat.nan
          else vec3.mk (GFloat.fin 0) (GFloat.fin 0) (GFloat.fin (-d)))) := by
  have hd0 : d ≠ 0 := by rcases hd with h | h <;> rw [h] <;> norm_num
  have hF0 : ¬ far < 0 := not_lt.mpr (le_trans h0 h1)
  have hmiss : (GFloat.lt (IntersectAABB_tF c (vec3.mk (GFloat.fin 0) (GFloat.fin 0) (GFloat.fin a))
          (vec3.mk (GFloat.fin 0) (GFloat.fin 0) (GFloat.fin d))
          (vec3.mk (GFloat.fin 0) (GFloat.fin 0) (GFloat.fin b)) (vec3.splat (GFloat.fin e)))
        (IntersectAABB_tN c (vec3.mk (GFloat.fin 0) (GFloat.fin 0) (GFloat.fin a))
          (vec3.mk (GFloat.fin 0) (GFloat.fin 0) (GFloat.fin d))
          (vec3.mk (GFloat.fin 0) (GFloat.fin 0) (GFloat.fin b)) (vec3.splat (GFloat.fin e))) ||
      GFloat.lt (IntersectAABB_tF c (vec3.mk (GFloat.fin 0) (GFloat.fin 0) (GFloat.fin a))
          (vec3.mk (GFloat.fin 0) (GFloat.fin 0) (GFloat.fin d))
          (vec3.mk (GFloat.fin 0) (GFloat.fin 0) (GFloat.fin b)) (vec3.splat (GFloat.fin e)))
        (GFloat.fin 0) ||
      GFloat.lt (IntersectAABB_tN c (vec3.mk (GFloat.fin 0) (GFloat.fin 0) (GFloat.fin a))
          (vec3.mk (GFloat.fin 0) (GFloat.fin 0) (GFloat.fin d))
          (vec3.mk (GFloat.fin 0) (GFloat.fin 0) (GFloat.fin b)) (vec3.splat (GFloat.fin e)))
        (GFloat.fin 0)) = false := by
    rw [tN_axis c a b d e hd0, tF_axis c a b d e hd0, hnear, hfar]
    cases c.maxLt GFloat.nan (GFloat.fin near) <;> cases c.minLt GFloat.nan (GFloat.fin far) <;>
      simp [GFloat.lt, not_lt.mpr h0, not_lt.mpr h1, hF0]
  have hnormal : normalize (-vsign (vec3.mk (GFloat.fin 0) (GFloat.fin 0) (GFloat.fin d))
        * vstep c (vec3.mk GFloat.nan GFloat.nan (GFloat.fin near)).yzx
            (vec3.mk GFloat.nan GFloat.nan (GFloat.fin near))
        * vstep c (vec3.mk GFloat.nan GFloat.nan (GFloat.fin near)).zxy
            (vec3.mk GFloat.nan GFloat.nan (GFloat.fin near))) =
      if c.stepLt GFloat.nan (GFloat.fin near) then vec3.mk GFloat.nan GFloat.nan GFloat.nan
      else vec3.mk (GFloat.fin 0) (GFloat.fin 0) (GFloat.fin (-d)) := by
    have hs0 : GFloat.sign (GFloat.fin 0) = GFloat.fin 0 := by simp [GFloat.sign]
    have hsd : GFloat.sign (GFloat.fin d) = GFloat.fin d := by
      rcases hd with h | h <;> subst h <;> norm_num [GFloat.sign]
    simp only [vsign, vstep, vec3.yzx, vec3.zxy, vec3_neg_def, vec3_mul_def, hs0, hsd,
      GFloat.step_nan_left, GFloat.step_nan_right, GFloat.neg_fin]
    cases c.stepLt GFloat.nan GFloat.nan <;> cases c.stepLt (GFloat.fin near) GFloat.nan <;>
      cases c.stepLt GFloat.nan (GFloat.fin near) <;>
      simp only [if_true, if_false, Bool.false_eq_true, GFloat.fin_mul_fin, neg_zero, mul_zero,
        mul_one, zero_mul, normalize_zero] <;>
      exact normalize_of_unit 0 0 (-d) (by rcases hd with h | h <;> subst h <;> norm_num)
  simp only [IntersectAABB, hmiss, Bool.false_eq_true, if_false]
  rw [t1_axis a b d e hd0, hnear, hnormal]

/-- The primary ray through the image centre of a square window, for the initial camera basis,
is the forward vector. -/
theorem main_rayDir_center (w : ℝ) (hw : 0 < w) :
    main_rayDir (vec2.mk (GFloat.fin 0.5) (GFloat.fin 0.5)) (vec2.mk (GFloat.fin w) (GFloat.fin w))
        (vec3.mk (GFloat.fin 0) (GFloat.fin 0) (GFloat.fin 1))
        (vec3.mk (GFloat.fin 1) (GFloat.fin 0) (GFloat.fin 0))
        (vec3.mk (GFloat.fin 0) (GFloat.fin 1) (GFloat.fin 0)) =
      vec3.mk (GFloat.fin 0) (GFloat.fin 0) (GFloat.fin 1) := by
  have h10 : ¬ ((1 : ℝ) < 0) := by norm_num
  have hone : (1 : ℝ) ≠ 0 := one_ne_zero
  have h5 : (0.5 : ℝ) * 2 - 1 = 0 := by norm_num
  simp [main_rayDir, normalize, length, dot, vec3_add_def, vec3_smul_def, vec3_sdiv_def,
    GFloat.fin_div_fin w w (ne_of_gt hw), GFloat.sqrt, GFloat.fin_div_fin _ _ hone, h10, h5]

/-- The sphere test of the scenario: t = 12, y = 0, x = 10, Distance = 2, Point = (0,0,2). -/
theorem sphere_scenario :
    sphereT (Vector3f.mk 0 0 0) (Vector3f.mk 0 0 1) (Vector3f.mk 0 0 12) = 12 ∧
    closestApproach (Vector3f.mk 0 0 0) (Vector3f.mk 0 0 1) (Vector3f.mk 0 0 12) = 0 ∧
    Real.sqrt (10 * 10 - 0 * 0) = 10 := by
  refine ⟨?_, ?_, ?_⟩
  · norm_num [sphereT, Vector3f_Dot, Vector3f_Subtract]
  · rw [closestApproach, Vector3f_Length_eq_iff _ _ le_rfl]
    norm_num [Vector3f_SqrLength, Vector3f_Subtract, rayPoint, Vector3f_Add,
      Vector3f_MultiplyScalar, sphereT, Vector3f_Dot]
  · rw [Real.sqrt_eq_iff_mul_self_eq (by norm_num) (by norm_num)]
    norm_num

theorem IntersectSphere_scenario :
    IntersectSphere (vec3.mk (GFloat.fin 0) (GFloat.fin 0) (GFloat.fin 0))
        (vec3.mk (GFloat.fin 0) (GFloat.fin 0) (GFloat.fin 1))
        (vec3.mk (GFloat.fin 0) (GFloat.fin 0) (GFloat.fin 12)) (GFloat.fin 10) =
      Hit.mk true (some (GFloat.fin 2))
        (some (vec3.mk (GFloat.fin 0) (GFloat.fin 0) (GFloat.fin 2)))
        (some (vec3.mk (GFloat.fin 0) (GFloat.fin 0) (GFloat.fin (-1)))) := by
  obtain ⟨hT, hY, hX⟩ := sphere_scenario
  have h := IntersectSphere_toVec3 (Vector3f.mk 0 0 0) (Vector3f.mk 0 0 1) (Vector3f.mk 0 0 12) 10
  rw [hT, hY, hX, if_pos (by norm_num), if_neg (by norm_num)] at h
  have e : ∀ a b c : ℝ, (Vector3f.mk a b c).toVec3
      = vec3.mk (GFloat.fin a) (GFloat.fin b) (GFloat.fin c) := fun _ _ _ => rfl
  rw [e, e, e] at h
  rw [h]
  norm_num [Vector3f.toVec3, sphereNormal, rayPoint, Vector3f_Add, Vector3f_MultiplyScalar]

theorem vround_scenario :
    vround (vec3.mk (GFloat.fin 0) (GFloat.fin 0) (GFloat.fin 2)) =
      vec3.mk (GFloat.fin 0) (GFloat.fin 0) (GFloat.fin 2) := by
  simp [vround, GFloat.roundNearest]

/-- The box test of the scenario on every implementation: a hit, with the normal (0, 0, -1) if
`step` returns `1.0` for a `NaN` edge and the normalised zero vector otherwise. -/
theorem IntersectAABB_scenario (c : NaNChoice) :
    IntersectAABB c (vec3.mk (GFloat.fin 0) (GFloat.fin 0) (GFloat.fin 0))
        (vec3.mk (GFloat.fin 0) (GFloat.fin 0) (GFloat.fin 1))
        (vec3.mk (GFloat.fin 0) (GFloat.fin 0) (GFloat.fin 2))
        (vec3.splat (GFloat.fin 0.4)) =
      Hit.mk true none none
        (some (if c.stepLt GFloat.nan (GFloat.fin 1.6) then
            vec3.mk GFloat.nan GFloat.nan GFloat.nan
          else vec3.mk (GFloat.fin 0) (GFloat.fin 0) (GFloat.fin (-1)))) :=
  IntersectAABB_axis c 0 2 1 0.4 1.6 2.4 (Or.inl rfl) (by norm_num) (by norm_num)
    (by norm_num) (by norm_num)

/-- In the scenario the fragment shader outputs the colour of the box normal. -/
theorem fragment_main_scenario (c : NaNChoice) (w : ℝ) (hw : 0 < w) :
    fragment_main c (vec2.mk (GFloat.fin 0.5) (GFloat.fin 0.5))
        (vec2.mk (GFloat.fin w) (GFloat.fin w))
        (vec3.mk (GFloat.fin 0) (GFloat.fin 0) (GFloat.fin 0))
        (vec3.mk (GFloat.fin 0) (GFloat.fin 0) (GFloat.fin 1))
        (vec3.mk (GFloat.fin 1) (GFloat.fin 0) (GFloat.fin 0))
        (vec3.mk (GFloat.fin 0) (GFloat.fin 1) (GFloat.fin 0)) =
      normalColor
        (IntersectAABB c (vec3.mk (GFloat.fin 0) (GFloat.fin 0) (GFloat.fin 0))
            (vec3.mk (GFloat.fin 0) (GFloat.fin 0) (GFloat.fin 1))
            (vec3.mk (GFloat.fin 0) (GFloat.fin 0) (GFloat.fin 2))
            (vec3.splat (GFloat.fin 0.4))) := by
  simp only [fragment_main, main_rayDir_center w hw, IntersectSphere_scenario,
    vround_scenario, IntersectAABB_scenario c, if_true]

theorem signReal_mul_self (d : ℝ) (hd : d ≠ 0) : signReal d * signReal d = 1 := by
  unfold signReal
  rcases lt_or_gt_of_ne hd with h | h
  · simp [h, not_lt.mpr h.le]
  · simp [h]

theorem abs_one_div_mul (d : ℝ) (hd : d ≠ 0) : |1 / d| * d = signReal d := by
  unfold signReal
  rcases lt_or_gt_of_ne hd with h | h
  · have h1 : 1 / d < 0 := one_div_neg.mpr h
    rw [abs_of_neg h1, if_neg (not_lt.mpr h.le), if_pos h]
    field_simp
  · have h1 : 0 < 1 / d := one_div_pos.mpr h
    rw [abs_of_pos h1, if_pos h]
    field_simp

theorem abs_one_div_mul_abs (d : ℝ) (hd : d ≠ 0) : |1 / d| * |d| = 1 := by
  rw [← abs_mul, one_div, inv_mul_cancel₀ hd, abs_one]

/-- At its near distance the ray is on the entry plane of the slab, the one on the side the ray
comes from. -/
theorem slab_entry (o d b e : ℝ) (hd : d ≠ 0) :
    o + d * slabNear1 o d b e - b = -signReal d * e := by
  have h := abs_one_div_mul d hd
  unfold slabNear1
  have : o + d * (-(1 / d * (o - b)) - |1 / d| * e) - b
      = (o - b) - d * (1 / d) * (o - b) - (|1 / d| * d) * e := by ring
  rw [this, h, mul_one_div_cancel hd]
  ring

/-- Between the near and the far distance of a slab the ray is inside the slab. -/
theorem slab_between (o d b e t : ℝ) (hd : d ≠ 0) (h1 : slabNear1 o d b e ≤ t)
    (h2 : t ≤ slabFar1 o d b e) : |o + d * t - b| ≤ e := by
  unfold slabNear1 at h1
  unfold slabFar1 at h2
  have hk := abs_one_div_mul_abs d hd
  have hd0 : 0 < |d| := abs_pos.mpr hd
  have hfac : o + d * t - b = d * (t + 1 / d * (o - b)) := by
    field_simp
    ring
  have hin : |t + 1 / d * (o - b)| ≤ |1 / d| * e := by
    rw [abs_le]
    constructor <;> linarith
  rw [hfac, abs_mul]
  calc |d| * |t + 1 / d * (o - b)| ≤ |d| * (|1 / d| * e) :=
        mul_le_mul_of_nonneg_left hin hd0.le
    _ = (|1 / d| * |d|) * e := by ring
    _ = e := by rw [hk, one_mul]

/-! ## Slab method: the shader on ordinary numbers -/

namespace GFloat

theorem max_fin_fin (c : NaNChoice) (a b : ℝ) :
    max c (fin a) (fin b) = fin (Max.max a b) := by
  simp only [max, isNaN, Bool.or_self, Bool.false_eq_true, if_false]
  rw [lt_fin_fin]
  by_cases h : a < b
  · simp [h, max_eq_right h.le]
  · simp [h, max_eq_left (not_lt.mp h)]

theorem min_fin_fin (c : NaNChoice) (a b : ℝ) :
    min c (fin a) (fin b) = fin (Min.min a b) := by
  simp only [min, isNaN, Bool.or_self, Bool.false_eq_true, if_false]
  rw [lt_fin_fin]
  by_cases h : b < a
  · simp [h, min_eq_right h.le]
  · simp [h, min_eq_left (not_lt.mp h)]

theorem sign_fin (a : ℝ) : sign (fin a) = fin (signReal a) := by
  show (if 0 < a then fin 1 else if a < 0 then fin (-1) else fin 0) = fin (signReal a)
  unfold signReal
  split_ifs <;> rfl

theorem step_fin_fin (c : NaNChoice) (edge x : ℝ) :
    step c (fin edge) (fin x) = fin (if x < edge then 0 else 1) := by
  simp only [step, isNaN, Bool.or_self, Bool.false_eq_true, if_false]
  rw [lt_fin_fin]
  by_cases h : x < edge <;> simp [h]

end GFloat

theorem IntersectAABB_m_toVec3 (d : Vector3f) (hx : d.x ≠ 0) (hy : d.y ≠ 0) (hz : d.z ≠ 0) :
    IntersectAABB_m d.toVec3 =
      vec3.mk (GFloat.fin (1 / d.x)) (GFloat.fin (1 / d.y)) (GFloat.fin (1 / d.z)) := by
  simp only [IntersectAABB_m, vec3_rdiv_def, Vector3f.toVec3, GFloat.fin_div_fin _ _ hx,
    GFloat.fin_div_fin _ _ hy, GFloat.fin_div_fin _ _ hz]

theorem IntersectAABB_t1_toVec3 (o d b e : Vector3f) (hx : d.x ≠ 0) (hy : d.y ≠ 0)
    (hz : d.z ≠ 0) :
    IntersectAABB_t1 o.toVec3 d.toVec3 b.toVec3 e.toVec3 =
      vec3.mk (GFloat.fin (slabNear1 o.x d.x b.x e.x)) (GFloat.fin (slabNear1 o.y d.y b.y e.y))
        (GFloat.fin (slabNear1 o.z d.z b.z e.z)) := by
  simp only [IntersectAABB_t1, IntersectAABB_m_toVec3 d hx hy hz]
  simp only [vabs, vec3_sub_def, vec3_mul_def, vec3_neg_def, Vector3f.toVec3,
    GFloat.fin_sub_fin, GFloat.fin_mul_fin, GFloat.neg_fin, GFloat.abs_fin, slabNear1]

theorem IntersectAABB_t2_toVec3 (o d b e : Vector3f) (hx : d.x ≠ 0) (hy : d.y ≠ 0)
    (hz : d.z ≠ 0) :
    IntersectAABB_t2 o.toVec3 d.toVec3 b.toVec3 e.toVec3 =
      vec3.mk (GFloat.fin (slabFar1 o.x d.x b.x e.x)) (GFloat.fin (slabFar1 o.y d.y b.y e.y))
        (GFloat.fin (slabFar1 o.z d.z b.z e.z)) := by
  simp only [IntersectAABB_t2, IntersectAABB_m_toVec3 d hx hy hz]
  simp only [vabs, vec3_sub_def, vec3_mul_def, vec3_neg_def, vec3_add_def, Vector3f.toVec3,
    GFloat.fin_sub_fin, GFloat.fin_mul_fin, GFloat.fin_add_fin, GFloat.neg_fin,
    GFloat.abs_fin, slabFar1]

theorem IntersectAABB_tN_toVec3 (c : NaNChoice) (o d b e : Vector3f) (hx : d.x ≠ 0)
    (hy : d.y ≠ 0) (hz : d.z ≠ 0) :
    IntersectAABB_tN c o.toVec3 d.toVec3 b.toVec3 e.toVec3 = GFloat.fin (slabNear o d b e) := by
  simp only [IntersectAABB_tN, IntersectAABB_t1_toVec3 o d b e hx hy hz, GFloat.max_fin_fin,
    slabNear]

theorem IntersectAABB_tF_toVec3 (c : NaNChoice) (o d b e : Vector3f) (hx : d.x ≠ 0)
    (hy : d.y ≠ 0) (hz : d.z ≠ 0) :
    IntersectAABB_tF c o.toVec3 d.toVec3 b.toVec3 e.toVec3 = GFloat.fin (slabFar o d b e) := by
  simp only [IntersectAABB_tF, IntersectAABB_t2_toVec3 o d b e hx hy hz, GFloat.min_fin_fin,
    slabFar]

/-- With non-zero direction components the shader reports a box hit exactly when
`0 ≤ tN ≤ tF` (the third comparison, `tF < 0`, then follows). -/
theorem IntersectAABB_Hit_iff (c : NaNChoice) (o d b e : Vector3f) (hx : d.x ≠ 0) (hy : d.y ≠ 0)
    (hz : d.z ≠ 0) :
    (IntersectAABB c o.toVec3 d.toVec3 b.toVec3 e.toVec3).Hit = true ↔
      0 ≤ slabNear o d b e ∧ slabNear o d b e ≤ slabFar o d b e := by
  simp only [IntersectAABB, IntersectAABB_tN_toVec3 c o d b e hx hy hz,
    IntersectAABB_tF_toVec3 c o d b e hx hy hz, GFloat.lt_fin_fin]
  by_cases h1 : slabFar o d b e < slabNear o d b e
  · simp [h1]
  · by_cases h2 : slabNear o d b e < 0
    · simp [h1, h2]
    · have h3 : ¬ slabFar o d b e < 0 := by
        push_neg at h1 h2 ⊢
        linarith
      simp [h1, h2, h3, not_lt.mp h1, not_lt.mp h2]

/-- The vector that `IntersectAABB` normalises, on ordinary numbers: component `i` is
`-sign(d_i)` when the near distance of axis `i` is at least the other two, and zero otherwise. -/
theorem aabb_normal_raw (ch : NaNChoice) (d : Vector3f) (a b c : ℝ) :
    -vsign d.toVec3
        * vstep ch (vec3.mk (GFloat.fin a) (GFloat.fin b) (GFloat.fin c)).yzx
            (vec3.mk (GFloat.fin a) (GFloat.fin b) (GFloat.fin c))
        * vstep ch (vec3.mk (GFloat.fin a) (GFloat.fin b) (GFloat.fin c)).zxy
            (vec3.mk (GFloat.fin a) (GFloat.fin b) (GFloat.fin c)) =
      vec3.mk
        (GFloat.fin (-signReal d.x * (if a < b then 0 else 1) * (if a < c then 0 else 1)))
        (GFloat.fin (-signReal d.y * (if b < c then 0 else 1) * (if b < a then 0 else 1)))
        (GFloat.fin (-signReal d.z * (if c < a then 0 else 1) * (if c < b then 0 else 1))) := by
  simp only [vsign, vstep, vec3.yzx, vec3.zxy, Vector3f.toVec3, GFloat.sign_fin,
    GFloat.step_fin_fin, vec3_neg_def, vec3_mul_def, GFloat.neg_fin, GFloat.fin_mul_fin]

/-- The value of `IntersectAABB` on a hit, with non-zero direction components. -/
theorem IntersectAABB_of_hit (c : NaNChoice) (o d b e : Vector3f) (hx : d.x ≠ 0)
    (hy : d.y ≠ 0) (hz : d.z ≠ 0)
    (hit : (IntersectAABB c o.toVec3 d.toVec3 b.toVec3 e.toVec3).Hit = true) :
    IntersectAABB c o.toVec3 d.toVec3 b.toVec3 e.toVec3 =
      Hit.mk true none none (some (normalize (vec3.mk
        (GFloat.fin (-signReal d.x
          * (if slabNear1 o.x d.x b.x e.x < slabNear1 o.y d.y b.y e.y then 0 else 1)
          * (if slabNear1 o.x d.x b.x e.x < slabNear1 o.z d.z b.z e.z then 0 else 1)))
        (GFloat.fin (-signReal d.y
          * (if slabNear1 o.y d.y b.y e.y < slabNear1 o.z d.z b.z e.z then 0 else 1)
          * (if slabNear1 o.y d.y b.y e.y < slabNear1 o.x d.x b.x e.x then 0 else 1)))
        (GFloat.fin (-signReal d.z
          * (if slabNear1 o.z d.z b.z e.z < slabNear1 o.x d.x b.x e.x then 0 else 1)
          * (if slabNear1 o.z d.z b.z e.z < slabNear1 o.y d.y b.y e.y then 0 else 1)))))) := by
  obtain ⟨h0, h1⟩ := (IntersectAABB_Hit_iff c o d b e hx hy hz).mp hit
  have hF : ¬ slabFar o d b e < 0 := by
    push_neg
    linarith
  simp only [IntersectAABB, IntersectAABB_tN_toVec3 c o d b e hx hy hz,
    IntersectAABB_tF_toVec3 c o d b e hx hy hz, IntersectAABB_t1_toVec3 o d b e hx hy hz,
    GFloat.lt_fin_fin, not_lt.mpr h0, not_lt.mpr h1, hF, decide_False, Bool.or_self,
    Bool.false_eq_true, if_false, aabb_normal_raw]

/-! ## Slab method: soundness -/

theorem abs_signReal (d : ℝ) (hd : d ≠ 0) : |signReal d| = 1 := by
  have h := signReal_mul_self d hd
  rw [← abs_mul_abs_self] at h
  nlinarith [abs_nonneg (signReal d)]

theorem rayPoint_x (o d : Vector3f) (t : ℝ) : (rayPoint o d t).x = o.x + d.x * t := rfl

theorem rayPoint_y (o d : Vector3f) (t : ℝ) : (rayPoint o d t).y = o.y + d.y * t := rfl

theorem rayPoint_z (o d : Vector3f) (t : ℝ) : (rayPoint o d t).z = o.z + d.z * t := rfl

/-- On the entry plane of a slab with a positive half-extent the ray is on the boundary of the
slab. -/
theorem slab_entry_abs (o d b e : ℝ) (hd : d ≠ 0) (he : 0 < e) :
    |o + d * slabNear1 o d b e - b| = e := by
  rw [slab_entry o d b e hd, abs_mul, abs_neg, abs_signReal d hd, one_mul, abs_of_pos he]

/-- On a hit the point at the near distance is on the surface of the box. -/
theorem onBoxSurface_of_hit (o d b e : Vector3f) (hx : d.x ≠ 0) (hy : d.y ≠ 0) (hz : d.z ≠ 0)
    (hex : 0 < e.x) (hey : 0 < e.y) (hez : 0 < e.z)
    (h1 : slabNear o d b e ≤ slabFar o d b e) :
    onBoxSurface (rayPoint o d (slabNear o d b e)) b e := by
  have nx : slabNear1 o.x d.x b.x e.x ≤ slabNear o d b e :=
    le_trans (le_max_left _ _) (le_max_left _ _)
  have ny : slabNear1 o.y d.y b.y e.y ≤ slabNear o d b e :=
    le_trans (le_max_right _ _) (le_max_left _ _)
  have nz : slabNear1 o.z d.z b.z e.z ≤ slabNear o d b e := le_max_right _ _
  have fx : slabFar o d b e ≤ slabFar1 o.x d.x b.x e.x :=
    le_trans (min_le_left _ _) (min_le_left _ _)
  have fy : slabFar o d b e ≤ slabFar1 o.y d.y b.y e.y :=
    le_trans (min_le_left _ _) (min_le_right _ _)
  have fz : slabFar o d b e ≤ slabFar1 o.z d.z b.z e.z := min_le_right _ _
  refine ⟨?_, ?_, ?_, ?_⟩
  · rw [rayPoint_x]
    exact slab_between _ _ _ _ _ hx nx (le_trans h1 fx)
  · rw [rayPoint_y]
    exact slab_between _ _ _ _ _ hy ny (le_trans h1 fy)
  · rw [rayPoint_z]
    exact slab_between _ _ _ _ _ hz nz (le_trans h1 fz)
  · rw [rayPoint_x, rayPoint_y, rayPoint_z]
    have hcases : slabNear o d b e = slabNear1 o.x d.x b.x e.x ∨
        slabNear o d b e = slabNear1 o.y d.y b.y e.y ∨
        slabNear o d b e = slabNear1 o.z d.z b.z e.z := by
      unfold slabNear
      rcases max_choice (max (slabNear1 o.x d.x b.x e.x) (slabNear1 o.y d.y b.y e.y))
        (slabNear1 o.z d.z b.z e.z) with h | h
      · rcases max_choice (slabNear1 o.x d.x b.x e.x) (slabNear1 o.y d.y b.y e.y) with g | g
        · left; rw [h, g]
        · right; left; rw [h, g]
      · right; right; exact h
    rcases hcases with h | h | h
    · left; rw [h]; exact slab_entry_abs _ _ _ _ hx hex
    · right; left; rw [h]; exact slab_entry_abs _ _ _ _ hy hey
    · right; right; rw [h]; exact slab_entry_abs _ _ _ _ hz hez

/-- C11. For every ray whose three direction components are all non-zero and every box with
positive half-extents, on every implementation (no `NaN` arises, so the choice `c` plays no
part), whenever `IntersectAABB` reports Hit = true: the per-axis near distances
t1 and the values tN (their maximum) and tF (the minimum of the far distances) are ordinary
numbers with 0 <= tN <= tF, and the point rayPos + tN * rayDir lies on the surface of the box.  If
the maximum is attained on exactly one axis i (the other two near distances are strictly
smaller), the reported Normal is -sign(rayDir_i) * e_i, a unit axis vector, and the point lies on
the face of the box whose outward normal it is: its i-th coordinate is
boxPos_i - sign(rayDir_i) * boxSize_i. -/
theorem C11_slab_soundness (c : NaNChoice) (o d b e : Vector3f) (hx : d.x ≠ 0)
    (hy : d.y ≠ 0) (hz : d.z ≠ 0)
    (hex : 0 < e.x) (hey : 0 < e.y) (hez : 0 < e.z)
    (hit : (IntersectAABB c o.toVec3 d.toVec3 b.toVec3 e.toVec3).Hit = true) :
    IntersectAABB_t1 o.toVec3 d.toVec3 b.toVec3 e.toVec3 =
      vec3.mk (GFloat.fin (slabNear1 o.x d.x b.x e.x)) (GFloat.fin (slabNear1 o.y d.y b.y e.y))
        (GFloat.fin (slabNear1 o.z d.z b.z e.z)) ∧
    IntersectAABB_tN c o.toVec3 d.toVec3 b.toVec3 e.toVec3 = GFloat.fin (slabNear o d b e) ∧
    IntersectAABB_tF c o.toVec3 d.toVec3 b.toVec3 e.toVec3 = GFloat.fin (slabFar o d b e) ∧
    0 ≤ slabNear o d b e ∧ slabNear o d b e ≤ slabFar o d b e ∧
    onBoxSurface (rayPoint o d (slabNear o d b e)) b e ∧
    (slabNear1 o.y d.y b.y e.y < slabNear1 o.x d.x b.x e.x →
      slabNear1 o.z d.z b.z e.z < slabNear1 o.x d.x b.x e.x →
      IntersectAABB c o.toVec3 d.toVec3 b.toVec3 e.toVec3 =
        Hit.mk true none none
          (some (vec3.mk (GFloat.fin (-signReal d.x)) (GFloat.fin 0) (GFloat.fin 0))) ∧
      |signReal d.x| = 1 ∧
      (rayPoint o d (slabNear o d b e)).x = b.x - signReal d.x * e.x) ∧
    (slabNear1 o.x d.x b.x e.x < slabNear1 o.y d.y b.y e.y →
      slabNear1 o.z d.z b.z e.z < slabNear1 o.y d.y b.y e.y →
      IntersectAABB c o.toVec3 d.toVec3 b.toVec3 e.toVec3 =
        Hit.mk true none none
          (some (vec3.mk (GFloat.fin 0) (GFloat.fin (-signReal d.y)) (GFloat.fin 0))) ∧
      |signReal d.y| = 1 ∧
      (rayPoint o d (slabNear o d b e)).y = b.y - signReal d.y * e.y) ∧
    (slabNear1 o.x d.x b.x e.x < slabNear1 o.z d.z b.z e.z →
      slabNear1 o.y d.y b.y e.y < slabNear1 o.z d.z b.z e.z →
      IntersectAABB c o.toVec3 d.toVec3 b.toVec3 e.toVec3 =
        Hit.mk true none none
          (some (vec3.mk (GFloat.fin 0) (GFloat.fin 0) (GFloat.fin (-signReal d.z)))) ∧
      |signReal d.z| = 1 ∧
      (rayPoint o d (slabNear o d b e)).z = b.z - signReal d.z * e.z) := by
  obtain ⟨h0, h1⟩ := (IntersectAABB_Hit_iff c o d b e hx hy hz).mp hit
  have hval := IntersectAABB_of_hit c o d b e hx hy hz hit
  refine ⟨IntersectAABB_t1_toVec3 o d b e hx hy hz, IntersectAABB_tN_toVec3 c o d b e hx hy hz,
    IntersectAABB_tF_toVec3 c o d b e hx hy hz, h0, h1,
    onBoxSurface_of_hit o d b e hx hy hz hex hey hez h1, ?_, ?_, ?_⟩
  · intro hyx hzx
    refine ⟨?_, abs_signReal _ hx, ?_⟩
    · rw [hval]
      simp only [if_neg (not_lt.mpr hyx.le), if_neg (not_lt.mpr hzx.le), if_pos hyx, if_pos hzx,
        mul_one, mul_zero, zero_mul]
      rw [normalize_of_unit _ _ _ (by
        have := signReal_mul_self d.x hx
        linarith)]
    · have ht : slabNear o d b e = slabNear1 o.x d.x b.x e.x := by
        unfold slabNear
        rw [max_eq_left hyx.le, max_eq_left hzx.le]
      rw [rayPoint_x, ht]
      linarith [slab_entry o.x d.x b.x e.x hx]
  · intro hxy hzy
    refine ⟨?_, abs_signReal _ hy, ?_⟩
    · rw [hval]
      simp only [if_neg (not_lt.mpr hxy.le), if_neg (not_lt.mpr hzy.le), if_pos hxy, if_pos hzy,
        mul_one, mul_zero, zero_mul]
      rw [normalize_of_unit _ _ _ (by
        have := signReal_mul_self d.y hy
        linarith)]
    · have ht : slabNear o d b e = slabNear1 o.y d.y b.y e.y := by
        unfold slabNear
        rw [max_eq_right hxy.le, max_eq_left hzy.le]
      rw [rayPoint_y, ht]
      linarith [slab_entry o.y d.y b.y e.y hy]
  · intro hxz hyz
    refine ⟨?_, abs_signReal _ hz, ?_⟩
    · rw [hval]
      simp only [if_neg (not_lt.mpr hxz.le), if_neg (not_lt.mpr hyz.le), if_pos hxz, if_pos hyz,
        mul_one, mul_zero, zero_mul]
      rw [normalize_of_unit _ _ _ (by
        have := signReal_mul_self d.z hz
        linarith)]
    · have ht : slabNear o d b e = slabNear1 o.z d.z b.z e.z := by
        unfold slabNear
        rw [max_eq_right (max_le hxz.le hyz.le)]
      rw [rayPoint_z, ht]
      linarith [slab_entry o.z d.z b.z e.z hz]

/-- C11 for the ray from (-0.5, -0.5, 1) in direction (1, 1, -1) and the box centred at the
origin with half-extents 0.4: the near distances are 0.1, 0.1 and 0.6, the far ones 0.9, 0.9 and
1.4, the ray enters through the face z = 0.4 and the reported normal is (0, 0, 1). -/
theorem C11_slab_soundness_witness :
    IntersectAABB NaNChoice.numberFirst (Vector3f.toVec3 (Vector3f.mk (-0.5) (-0.5) 1))
        (Vector3f.toVec3 (Vector3f.mk 1 1 (-1))) (Vector3f.toVec3 (Vector3f.mk 0 0 0))
        (Vector3f.toVec3 (Vector3f.mk 0.4 0.4 0.4)) =
      Hit.mk true none none
        (some (vec3.mk (GFloat.fin 0) (GFloat.fin 0) (GFloat.fin (-signReal (-1))))) :=
  have hn : slabNear1 (-0.5) 1 0 0.4 = 0.1 ∧ slabNear1 1 (-1) 0 0.4 = 0.6 ∧
      slabFar1 (-0.5) 1 0 0.4 = 0.9 ∧ slabFar1 1 (-1) 0 0.4 = 1.4 := by
    refine ⟨?_, ?_, ?_, ?_⟩ <;> norm_num [slabNear1, slabFar1]
  have hN : slabNear (Vector3f.mk (-0.5) (-0.5) 1) (Vector3f.mk 1 1 (-1)) (Vector3f.mk 0 0 0)
      (Vector3f.mk 0.4 0.4 0.4) = 0.6 := by
    simp only [slabNear, hn.1, hn.2.1]
    norm_num
  have hF : slabFar (Vector3f.mk (-0.5) (-0.5) 1) (Vector3f.mk 1 1 (-1)) (Vector3f.mk 0 0 0)
      (Vector3f.mk 0.4 0.4 0.4) = 0.9 := by
    simp only [slabFar, hn.2.2.1, hn.2.2.2]
    norm_num
  have hxz : slabNear1 (-0.5) 1 0 0.4 < slabNear1 1 (-1) 0 0.4 := by
    rw [hn.1, hn.2.1]
    norm_num
  ((C11_slab_soundness NaNChoice.numberFirst (Vector3f.mk (-0.5) (-0.5) 1)
    (Vector3f.mk 1 1 (-1)) (Vector3f.mk 0 0 0)
    (Vector3f.mk 0.4 0.4 0.4) (by norm_num) (by norm_num) (by norm_num) (by norm_num)
    (by norm_num) (by norm_num)
    ((IntersectAABB_Hit_iff _ _ _ _ _ (by norm_num) (by norm_num) (by norm_num)).mpr
      (by rw [hN, hF]; norm_num))).2.2.2.2.2.2.2.2 hxz hxz).1

end BlockyRaytracer
